import Mathlib

/-!
Shallow embedding of the QEMU-object-model core (src/qom/object.c, object.h).

Modelling conventions:
* C pointers to `TypeImpl` are represented by the type's `name`; all
  `TypeImpl`s ever allocated (registered ones and the hidden interface
  types synthesized by `type_initialize_interface`) live in a single
  `pool`, and the model refuses (with `Err.ub`) to proceed whenever a
  name collision would break the name-as-pointer correspondence.
* `guint32 ref` is a `Nat` reduced mod `2^32` at each update.
* A class descriptor is its `ObjectClass` header (type back-pointer,
  interface list, property-table identity, and the two `InterfaceClass`
  fields) plus an opaque `payload` of `class_size` slots standing for the
  bytes past the header (the method table); `memcpy` copies the header
  and a payload prefix.
* `g_assert`/`abort` paths return `Err.fatal`; running out of fuel on the
  (not structurally terminating) parent-chain walks returns
  `Err.outOfFuel`; dereferences that C could only reach through dangling
  pointers return `Err.ub`.
* The hooks `class_init`/`class_base_init` are modelled as functions
  mutating the class descriptor (as the C hooks may through their
  `klass` argument); `instance_init`/`instance_finalize` are presence
  flags, and every hook invocation is recorded in an event trace.
-/

set_option maxHeartbeats 4000000

namespace QOM

/-- Fatal outcomes: a failed `g_assert`, or an explicit diagnostic + `abort()`. -/
inductive Fatal where
  | assertFail (msg : String)
  | abortDiag (msg : String)
deriving DecidableEq, Repr

/-- Errors of a model run. `fatal` is real program behaviour; `outOfFuel` means
the chosen fuel bound was too small; `ub` marks a state only reachable in C
through a dangling pointer or NULL dereference. -/
inductive Err where
  | fatal (f : Fatal)
  | outOfFuel
  | ub (msg : String)
deriving DecidableEq, Repr

instance {ε α : Type _} [DecidableEq ε] [DecidableEq α] : DecidableEq (Except ε α) :=
  fun a b =>
    match a, b with
    | .ok x, .ok y =>
      if h : x = y then .isTrue (by rw [h]) else .isFalse (fun c => h (Except.ok.inj c))
    | .error x, .error y =>
      if h : x = y then .isTrue (by rw [h]) else .isFalse (fun c => h (Except.error.inj c))
    | .ok _, .error _ => .isFalse (fun c => Except.noConfusion c)
    | .error _, .ok _ => .isFalse (fun c => Except.noConfusion c)

/-- The `ObjectClass`/`InterfaceClass` descriptor: header fields plus the
opaque method-table `payload` of `class_size` slots past the header. -/
structure ClassDescriptor where
  typeName : String
  interfaces : List String
  properties : Nat
  concrete_class : Option String
  interface_type : Option String
  payload : List Nat
deriving DecidableEq, Repr

/-- A class hook (`class_init` / `class_base_init`): mutates the descriptor
it is handed, as the C function pointer may through `klass`. -/
abbrev Hook := ClassDescriptor → ClassDescriptor

/-- The `struct TypeImpl` of object.c. `registered` distinguishes entries in
the type table from interface types synthesized by the materializer. -/
structure TypeImpl where
  name : String
  class_size : Nat
  instance_size : Nat
  class_init : Option Hook
  class_base_init : Option Hook
  instance_init : Bool
  instance_finalize : Bool
  abstract : Bool
  parent : Option String
  klass : Option ClassDescriptor
  interfaces : List String
  registered : Bool

/-- The `TypeInitPhase` enum of object.h. -/
inductive TypeInitPhase where
  | OBJECT_NEW_PHASE
  | TYPE_REGISTER_PHASE
deriving DecidableEq, Repr

/-- The `struct TypeInfo` of object.h (registration request). -/
structure TypeInfo where
  name : Option String := none
  parent : Option String := none
  instance_size : Nat := 0
  instance_init : Bool := false
  instance_finalize : Bool := false
  abstract : Bool := false
  class_size : Nat := 0
  class_init : Option Hook := none
  class_base_init : Option Hook := none
  type_init_phase : TypeInitPhase := TypeInitPhase.OBJECT_NEW_PHASE
  interfaces : List String := []

/-- Trace events: hook invocations, the parent-class byte copy, and the
final deallocator call. Hook events carry the descriptor passed to the
hook at the instant it is invoked. -/
inductive Event where
  | evCopy (src dst : String) (srcClass : ClassDescriptor)
  | evBaseInit (owner target : String) (arg : ClassDescriptor)
  | evClassInit (owner : String) (arg : ClassDescriptor)
  | evInstanceInit (owner : String)
  | evInstanceFinalize (owner : String)
  | evFree
deriving DecidableEq, Repr

/-- Event with the descriptor argument erased, for order-only statements. -/
inductive EventTag where
  | tCopy (src dst : String)
  | tBaseInit (owner target : String)
  | tClassInit (owner : String)
  | tInstanceInit (owner : String)
  | tInstanceFinalize (owner : String)
  | tFree
deriving DecidableEq, Repr

/-- Forgets the descriptor argument of an event. -/
def Event.tag : Event → EventTag
  | .evCopy s d _ => .tCopy s d
  | .evBaseInit o t _ => .tBaseInit o t
  | .evClassInit o _ => .tClassInit o
  | .evInstanceInit o => .tInstanceInit o
  | .evInstanceFinalize o => .tInstanceFinalize o
  | .evFree => .tFree

/-- Global state: the pool of all `TypeImpl`s (the type table is the
`registered` subset), a fresh-id counter standing for heap addresses of
property tables, the static `type_interface` variable, and the
`enumerating_types` flag. -/
structure QOMState where
  pool : List TypeImpl
  nextProp : Nat
  type_interface : Option String
  enumerating_types : Bool

/-- State before `object_type_register` has run. -/
def initState : QOMState :=
  { pool := [], nextProp := 1, type_interface := none, enumerating_types := false }

/-- Resolves a `TypeImpl*`: any pool entry, registered or synthesized. -/
def pool_lookup (s : QOMState) (n : String) : Option TypeImpl :=
  s.pool.find? (fun t => t.name == n)

/-- The `type_table_lookup` of object.c: registered entries only. -/
def type_table_lookup (s : QOMState) (n : String) : Option TypeImpl :=
  s.pool.find? (fun t => t.registered && t.name == n)

/-- The `type_get_by_name` of object.c: NULL name gives NULL. -/
def type_get_by_name (s : QOMState) (n : Option String) : Option TypeImpl :=
  n.bind (type_table_lookup s)

/-- Replaces the pool entry named `n` (unique by construction). -/
def pool_update (s : QOMState) (n : String) (f : TypeImpl → TypeImpl) : QOMState :=
  { s with pool := s.pool.map (fun t => if t.name == n then f t else t) }

/-- Rewrites the class descriptor of the pool entry named `n`. -/
def updateKlass (s : QOMState) (n : String) (f : ClassDescriptor → ClassDescriptor) : QOMState :=
  pool_update s n (fun t => { t with klass := t.klass.map f })

/-- Stores a class descriptor on the pool entry named `n`. -/
def setKlass (s : QOMState) (n : String) (k : ClassDescriptor) : QOMState :=
  pool_update s n (fun t => { t with klass := some k })

/-- Payload slots of `sizeof(ObjectClass)` past the header: zero, the header
fields being modelled separately. -/
def sizeofObjectClass : Nat := 0

/-- Payload slots of `sizeof(InterfaceClass)`: one slot standing for the
region holding `concrete_class`/`interface_type` past the `ObjectClass`
header (those two fields are additionally modelled as header fields). -/
def sizeofInterfaceClass : Nat := 1

/-- Instance slots of `sizeof(Object)`. -/
def sizeofObject : Nat := 1

/-- The `type_new` of object.c:80: asserts a name, aborts on a name already
registered, copies the info into a fresh `TypeImpl`. The fresh-address
guarantee of `g_malloc0` is modelled by refusing pool name collisions. -/
def type_new (s : QOMState) (info : TypeInfo) : Except Err (String × QOMState) :=
  match info.name with
  | none => .error (.fatal (.assertFail "info->name != NULL"))
  | some n =>
    match type_table_lookup s n with
    | some _ => .error (.fatal (.abortDiag ("Registering `" ++ n ++ "' which already exists")))
    | none =>
      if (pool_lookup s n).isSome then
        .error (.ub "pool name collision breaks the name-as-pointer correspondence")
      else
        let ti : TypeImpl :=
          { name := n
            class_size := info.class_size
            instance_size := info.instance_size
            class_init := info.class_init
            class_base_init := info.class_base_init
            instance_init := info.instance_init
            instance_finalize := info.instance_finalize
            abstract := info.abstract
            parent := info.parent
            klass := none
            interfaces := info.interfaces
            registered := false }
        .ok (n, { s with pool := s.pool ++ [ti] })

/-- The `type_table_add` of object.c:69: asserts no enumeration is running,
then inserts into the type table. -/
def type_table_add (s : QOMState) (n : String) : Except Err QOMState :=
  if s.enumerating_types then .error (.fatal (.assertFail "!enumerating_types"))
  else .ok (pool_update s n (fun t => { t with registered := true }))

/-- The `type_has_parent` of object.c. -/
def type_has_parent (t : TypeImpl) : Bool := t.parent.isSome

/-- The `type_get_parent` of object.c:185: resolves the parent name and
asserts the result is non-NULL (the pointer cache is not observable). -/
def type_get_parent (s : QOMState) (t : TypeImpl) : Except Err (Option TypeImpl) :=
  match t.parent with
  | none => .ok none
  | some p =>
    match pool_lookup s p with
    | none => .error (.fatal (.assertFail "type->parent_type != NULL"))
    | some pt => .ok (some pt)

/-- The `type_class_get_size` of object.c:200: first non-zero `class_size`
up the parent chain, else `sizeof(ObjectClass)`. -/
def type_class_get_size : Nat → QOMState → TypeImpl → Except Err Nat
  | fuel, s, t =>
    if t.class_size ≠ 0 then .ok t.class_size
    else
      match t.parent with
      | none => .ok sizeofObjectClass
      | some p =>
        match pool_lookup s p with
        | none => .error (.fatal (.assertFail "type->parent_type != NULL"))
        | some pt =>
          match fuel with
          | 0 => .error .outOfFuel
          | fuel'+1 => type_class_get_size fuel' s pt

/-- The `type_object_get_size` of object.c:213: first non-zero
`instance_size` up the parent chain, else 0. -/
def type_object_get_size : Nat → QOMState → TypeImpl → Except Err Nat
  | fuel, s, t =>
    if t.instance_size ≠ 0 then .ok t.instance_size
    else
      match t.parent with
      | none => .ok 0
      | some p =>
        match pool_lookup s p with
        | none => .error (.fatal (.assertFail "type->parent_type != NULL"))
        | some pt =>
          match fuel with
          | 0 => .error .outOfFuel
          | fuel'+1 => type_object_get_size fuel' s pt

/-- The while-loop of `type_is_ancestor` (object.c:239): walk `cur` up the
parent chain looking for `tgt` (pointer equality is name equality). -/
def ancestor_walk : Nat → QOMState → Option TypeImpl → TypeImpl → Except Err Bool
  | _, _, none, _ => .ok false
  | fuel, s, some t, tgt =>
    if t.name = tgt.name then .ok true
    else
      match t.parent with
      | none => .ok false
      | some p =>
        match pool_lookup s p with
        | none => .error (.fatal (.assertFail "type->parent_type != NULL"))
        | some pt =>
          match fuel with
          | 0 => .error .outOfFuel
          | fuel'+1 => ancestor_walk fuel' s (some pt) tgt

/-- The `type_is_ancestor` of object.c:234: asserts the target is non-NULL,
then walks the chain of `t`. -/
def type_is_ancestor' (fuel : Nat) (s : QOMState) (t tgt : Option TypeImpl) :
    Except Err Bool :=
  match tgt with
  | none => .error (.fatal (.assertFail "target_type"))
  | some tgt => ancestor_walk fuel s t tgt

/-- The `is_compatible_type` of object.c:250: asserts both names non-NULL,
resolves both in the type table, compares the two `TypeImpl*` (NULL == NULL
included), else asks `type_is_ancestor`. -/
def is_compatible_type (fuel : Nat) (s : QOMState)
    (typename target_typename : Option String) : Except Err Bool :=
  match typename with
  | none => .error (.fatal (.assertFail "typename != NULL"))
  | some tn =>
    match target_typename with
    | none => .error (.fatal (.assertFail "target_typename != NULL"))
    | some ttn =>
      let ty := type_get_by_name s (some tn)
      let target := type_get_by_name s (some ttn)
      let sameptr :=
        match ty, target with
        | none, none => true
        | some a, some b => a.name == b.name
        | _, _ => false
      if sameptr then .ok true
      else type_is_ancestor' fuel s ty target

/-- Semantics of `memcpy(dst, src, n)` on payload slot lists: the first `n`
slots come from `src`, the rest stay. -/
def memcpyPrefix (dst src : List Nat) (n : Nat) : List Nat :=
  src.take n ++ dst.drop n

/-- Invocation of `ti->class_init` at the end of `type_initialize`
(object.c:379): records the descriptor at the instant the hook is invoked,
then applies the hook's mutation. -/
def class_init_step (s : QOMState) (tname : String) (hook : Option Hook) :
    Except Err (QOMState × List Event) :=
  match hook with
  | none => .ok (s, [])
  | some h =>
    match pool_lookup s tname with
    | none => .error (.ub "class_init on dangling TypeImpl")
    | some t =>
      match t.klass with
      | none => .error (.ub "class_init before class allocation")
      | some k => .ok (setKlass s tname (h k), [Event.evClassInit tname k])

/-- The while-loop at object.c:372: walk from the immediate parent up the
chain; each ancestor with a `class_base_init` hook is invoked on the class
of `tname`. -/
def base_init_walk : Nat → QOMState → String → Option String →
    Except Err (QOMState × List Event)
  | _, s, _, none => .ok (s, [])
  | 0, _, _, some _ => .error .outOfFuel
  | fuel+1, s, tname, some cname =>
    match pool_lookup s cname with
    | none => .error (.ub "base_init walk on dangling TypeImpl")
    | some c => do
      let (s, ev1) ←
        match c.class_base_init with
        | none => pure (s, ([] : List Event))
        | some h =>
          match pool_lookup s tname with
          | none => .error (.ub "base_init on dangling TypeImpl")
          | some t =>
            match t.klass with
            | none => .error (.ub "base_init before class allocation")
            | some k =>
              pure (setKlass s tname (h k), [Event.evBaseInit cname tname k])
      let nxt ← type_get_parent s c
      let (s, ev2) ← base_init_walk fuel s tname (nxt.map (·.name))
      .ok (s, ev1 ++ ev2)

/-- The for/break loop inside the declared-interface pass of
`type_initialize` (object.c:351): does some already-present entry's
synthesized type have `t` as an ancestor? -/
def iface_dedup_scan (fuel : Nat) (s : QOMState) :
    List String → Option TypeImpl → Except Err Bool
  | [], _ => .ok false
  | e :: rest, t =>
    match pool_lookup s e with
    | none => .error (.ub "dangling interface entry")
    | some eimpl => do
      let b ← type_is_ancestor' fuel s (some eimpl) t
      if b then .ok true else iface_dedup_scan fuel s rest t

mutual

/-- The `type_initialize` of object.c:296: idempotent lazy materialization.
Resolves effective sizes, allocates the zeroed class, recursively
materializes the parent and byte-copies its class, re-creates the interface
list, then runs the `class_base_init` chain (immediate parent first) and
finally `class_init`. -/
def type_initialize' : Nat → QOMState → String → Except Err (QOMState × List Event)
  | 0, _, _ => .error .outOfFuel
  | fuel+1, s, tname =>
    match pool_lookup s tname with
    | none => .error (.ub "type_initialize on dangling TypeImpl")
    | some ti =>
      if ti.klass.isSome then .ok (s, []) else do
        let csize ← type_class_get_size fuel s ti
        let isize ← type_object_get_size fuel s ti
        let abs := ti.abstract || isize == 0
        let zeroK : ClassDescriptor :=
          { typeName := "", interfaces := [], properties := 0,
            concrete_class := none, interface_type := none,
            payload := List.replicate csize 0 }
        let s := pool_update s tname (fun t =>
          { t with class_size := csize, instance_size := isize,
                   abstract := abs, klass := some zeroK })
        let pOpt ← type_get_parent s ti
        match pOpt with
        | some p => do
          let (s, ev1) ← type_initialize' fuel s p.name
          match pool_lookup s p.name, pool_lookup s tname with
          | some p1, some ti1 =>
            if ti1.class_size < p1.class_size then
              .error (.fatal (.assertFail "parent->class_size <= ti->class_size"))
            else
              match p1.klass, ti1.klass with
              | some pk, some tk => do
                let copied : ClassDescriptor :=
                  { typeName := pk.typeName, interfaces := pk.interfaces,
                    properties := pk.properties,
                    concrete_class := pk.concrete_class,
                    interface_type := pk.interface_type,
                    payload := memcpyPrefix tk.payload pk.payload p1.class_size }
                let s := setKlass s tname copied
                let ev2 := [Event.evCopy p.name tname pk]
                let s := updateKlass s tname (fun k =>
                  { k with interfaces := [], properties := s.nextProp })
                let s := { s with nextProp := s.nextProp + 1 }
                let (s, ev3) ← init_parent_ifaces fuel s tname pk.interfaces
                let (s, ev4) ← init_own_ifaces fuel s tname ti.interfaces
                let s := updateKlass s tname (fun k => { k with typeName := tname })
                let (s, ev5) ← base_init_walk fuel s tname (some p.name)
                let (s, ev6) ← class_init_step s tname ti.class_init
                .ok (s, ev1 ++ ev2 ++ ev3 ++ ev4 ++ ev5 ++ ev6)
              | _, _ => .error (.ub "class vanished during initialization")
          | _, _ => .error (.ub "TypeImpl vanished during initialization")
        | none => do
          let s := updateKlass s tname (fun k => { k with properties := s.nextProp })
          let s := { s with nextProp := s.nextProp + 1 }
          let s := updateKlass s tname (fun k => { k with typeName := tname })
          let (s, ev6) ← class_init_step s tname ti.class_init
          .ok (s, ev6)

/-- The `type_initialize_interface` of object.c:268: synthesizes the hidden
abstract type `tname::iname` with parent `pname`, materializes it, fills in
its `InterfaceClass` fields and appends it to the concrete class's
interface list. -/
def type_initialize_iface : Nat → QOMState → String → String → String →
    Except Err (QOMState × List Event)
  | 0, _, _, _, _ => .error .outOfFuel
  | fuel+1, s, tname, iname, pname => do
    let synthName := tname ++ "::" ++ iname
    let info : TypeInfo :=
      { name := some synthName, parent := some pname, abstract := true }
    let (_, s) ← type_new s info
    let (s, ev) ← type_initialize' fuel s synthName
    let s := updateKlass s synthName (fun k =>
      { k with concrete_class := some tname, interface_type := some iname })
    let s := updateKlass s tname (fun k =>
      { k with interfaces := k.interfaces ++ [synthName] })
    .ok (s, ev)

/-- The first interface loop of `type_initialize` (object.c:341): for each
interface class on the parent's list, synthesize an entry for `tname`
implementing the same `interface_type`, with the parent's synthesized type
as parent. -/
def init_parent_ifaces : Nat → QOMState → String → List String →
    Except Err (QOMState × List Event)
  | _, s, _, [] => .ok (s, [])
  | 0, _, _, _ :: _ => .error .outOfFuel
  | fuel+1, s, tname, e :: rest =>
    match pool_lookup s e with
    | none => .error (.ub "dangling interface entry")
    | some eimpl =>
      match eimpl.klass with
      | none => .error (.ub "interface entry without class")
      | some ek =>
        match ek.interface_type with
        | none => .error (.ub "interface entry without interface_type")
        | some iname => do
          let (s, ev) ← type_initialize_iface fuel s tname iname eimpl.name
          let (s, ev') ← init_parent_ifaces fuel s tname rest
          .ok (s, ev ++ ev')

/-- The second interface loop of `type_initialize` (object.c:349): for each
declared interface name, resolve it, skip it when an already-present entry
covers it, else synthesize with the interface type itself as parent. -/
def init_own_ifaces : Nat → QOMState → String → List String →
    Except Err (QOMState × List Event)
  | _, s, _, [] => .ok (s, [])
  | 0, _, _, _ :: _ => .error .outOfFuel
  | fuel+1, s, tname, iname :: rest =>
    let t := type_table_lookup s iname
    match pool_lookup s tname with
    | none => .error (.ub "type_initialize on dangling TypeImpl")
    | some ti =>
      match ti.klass with
      | none => .error (.ub "interface pass before class allocation")
      | some k => do
        let found ← iface_dedup_scan fuel s k.interfaces t
        if found then init_own_ifaces fuel s tname rest
        else
          match t with
          | none => .error (.ub "NULL declared interface type dereferenced")
          | some timpl => do
            let (s, ev) ← type_initialize_iface fuel s tname timpl.name timpl.name
            let (s, ev') ← init_own_ifaces fuel s tname rest
            .ok (s, ev ++ ev')

end

/-- The `type_register_internal` of object.c:119: create, insert, and when
the info asks for `TYPE_REGISTER_PHASE`, materialize immediately. -/
def type_register_internal (fuel : Nat) (s : QOMState) (info : TypeInfo) :
    Except Err (String × QOMState × List Event) := do
  let (n, s) ← type_new s info
  let s ← type_table_add s n
  match info.type_init_phase with
  | .TYPE_REGISTER_PHASE => do
    let (s, ev) ← type_initialize' fuel s n
    .ok (n, s, ev)
  | .OBJECT_NEW_PHASE => .ok (n, s, [])

/-- The `type_register` of object.c:133: asserts the info names a parent. -/
def type_register (fuel : Nat) (s : QOMState) (info : TypeInfo) :
    Except Err (String × QOMState × List Event) :=
  match info.parent with
  | none => .error (.fatal (.assertFail "info->parent"))
  | some _ => type_register_internal fuel s info

/-- The `type_register_static` of object.c:139. -/
def type_register_static (fuel : Nat) (s : QOMState) (info : TypeInfo) :
    Except Err (String × QOMState × List Event) :=
  type_register fuel s info

/-- The `register_types` of object.c:687: registers the two parentless root
types through the internal path and latches the static `type_interface`. -/
def register_types (fuel : Nat) (s : QOMState) : Except Err QOMState := do
  let interface_info : TypeInfo :=
    { name := some "interface", class_size := sizeofInterfaceClass, abstract := true }
  let object_info : TypeInfo :=
    { name := some "object", instance_size := sizeofObject, abstract := true }
  let (n, s, _) ← type_register_internal fuel s interface_info
  let s := { s with type_interface := some n }
  let (_, s, _) ← type_register_internal fuel s object_info
  .ok s

/-- The `object_type_register` of object.c:705. -/
def object_type_register (fuel : Nat) (s : QOMState) : Except Err QOMState :=
  register_types fuel s

/-- The `get_class_by_name` of object.c:162: asserts a non-NULL, registered
name, and aborts with a caller-site diagnostic when the class is not yet
materialized; it never triggers materialization. -/
def get_class_by_name (s : QOMState) (typename : Option String)
    (file : String) (line : Nat) (func : String) : Except Err ClassDescriptor :=
  match typename with
  | none => .error (.fatal (.assertFail "typename != NULL"))
  | some n =>
    match type_table_lookup s n with
    | none => .error (.fatal (.assertFail "ti != NULL"))
    | some ti =>
      match ti.klass with
      | none =>
        .error (.fatal (.abortDiag
          (file ++ ":" ++ toString line ++ ":" ++ func ++ ": type " ++ n ++
            " is uninitialized")))
      | some k => .ok k

/-- The `object_class_by_name` of object.c:579: NULL for a missing name,
otherwise materialize and return the class. -/
def object_class_by_name (fuel : Nat) (s : QOMState) (typename : Option String) :
    Except Err (Option ClassDescriptor × QOMState × List Event) :=
  match type_get_by_name s typename with
  | none => .ok (none, s, [])
  | some ti => do
    let (s, ev) ← type_initialize' fuel s ti.name
    match pool_lookup s ti.name with
    | none => .error (.ub "TypeImpl vanished during initialization")
    | some t1 => .ok (t1.klass, s, ev)

/-- The scan loop of `object_class_dynamic_cast` (object.c:517): count the
interface entries whose synthesized type has the target as an ancestor,
keeping the last match. -/
def cast_iface_scan (fuel : Nat) (s : QOMState) (target : TypeImpl) :
    List String → Nat → Option ClassDescriptor →
    Except Err (Nat × Option ClassDescriptor)
  | [], found, ret => .ok (found, ret)
  | e :: rest, found, ret =>
    match pool_lookup s e with
    | none => .error (.ub "dangling interface entry")
    | some eimpl =>
      match eimpl.klass with
      | none => .error (.ub "interface entry without class")
      | some ek => do
        let b ← type_is_ancestor' fuel s (some eimpl) (some target)
        if b then cast_iface_scan fuel s target rest (found + 1) (some ek)
        else cast_iface_scan fuel s target rest found ret

/-- The `object_class_dynamic_cast` of object.c:484. The fast path compares
the class's own type name (C compares interned `char*` pointers; names are
the identities here). An unknown target fails the cast. When the class's
type has interfaces and the target descends from `type_interface`, the
interface list is scanned with ambiguity detection; otherwise plain
ancestry decides. -/
def object_class_dynamic_cast (fuel : Nat) (s : QOMState)
    (klass : Option ClassDescriptor) (typename : Option String) :
    Except Err (Option ClassDescriptor) :=
  match klass with
  | none => .ok none
  | some k =>
    match pool_lookup s k.typeName with
    | none => .error (.ub "class->type dangling")
    | some ty =>
      if typename = some ty.name then .ok (some k)
      else
        match type_get_by_name s typename with
        | none => .ok none
        | some target =>
          match ty.klass with
          | none => .error (.ub "type->class dereferenced before materialization")
          | some tyk =>
            if tyk.interfaces.isEmpty then do
              let b ← type_is_ancestor' fuel s (some ty) (some target)
              .ok (if b then some k else none)
            else do
              let ifaceRoot := s.type_interface.bind (pool_lookup s)
              let isIface ← type_is_ancestor' fuel s (some target) ifaceRoot
              if isIface then do
                let (found, ret) ← cast_iface_scan fuel s target k.interfaces 0 none
                .ok (if found > 1 then none else ret)
              else do
                let b ← type_is_ancestor' fuel s (some ty) (some target)
                .ok (if b then some k else none)

/-- The `object_class_dynamic_cast_assert` of object.c:537: returns the
class unchecked when it is NULL or carries no interfaces; otherwise aborts
with a caller-site diagnostic when the cast fails. -/
def object_class_dynamic_cast_assert (fuel : Nat) (s : QOMState)
    (klass : Option ClassDescriptor) (typename : Option String)
    (file : String) (line : Nat) (func : String) :
    Except Err (Option ClassDescriptor) :=
  match klass with
  | none => .ok none
  | some k =>
    if k.interfaces.isEmpty then .ok (some k)
    else do
      let ret ← object_class_dynamic_cast fuel s (some k) typename
      match ret with
      | none =>
        .error (.fatal (.abortDiag
          (file ++ ":" ++ toString line ++ ":" ++ func ++
            ": Object is not an instance of type " ++ (typename.getD "(null)"))))
      | some r => .ok (some r)

/-- The `guint32` modulus of the `Object.ref` field. -/
def guintMod : Nat := 2 ^ 32

/-- Wrapping decrement of a `guint32` (the `obj->ref--` of object.c). -/
def dec32 (v : Nat) : Nat := (v + (guintMod - 1)) % guintMod

/-- The `struct Object` header: class pointer (by type name), optional
deallocator, property-table identity, and the `guint32` reference count. -/
structure ObjectV where
  klassName : String
  free : Bool
  properties : Nat
  ref : Nat
deriving DecidableEq, Repr

/-- The `object_ref` of object.c:664. NULL is a no-op; otherwise the code
executes `obj->ref--`: it DECREMENTS the count (with `guint32` wraparound),
although object.h documents this function as increasing it. -/
def object_ref (obj : Option ObjectV) : Option ObjectV :=
  match obj with
  | none => none
  | some o => some { o with ref := dec32 o.ref }

/-- The `object_get_class` of object.c:564: the descriptor behind
`obj->class`. -/
def object_get_class (s : QOMState) (o : ObjectV) : Option ClassDescriptor :=
  (pool_lookup s o.klassName).bind (·.klass)

/-- The `object_get_typename` of object.c:559. -/
def object_get_typename (s : QOMState) (o : ObjectV) : Option String :=
  (pool_lookup s o.klassName).map (fun t => t.name)

/-- The `object_init_with_type` of object.c:384: run the `instance_init`
chain parent first, own hook last. -/
def object_init_with_type : Nat → QOMState → String → Except Err (List Event)
  | 0, _, _ => .error .outOfFuel
  | fuel+1, s, tname =>
    match pool_lookup s tname with
    | none => .error (.ub "object_init_with_type on dangling TypeImpl")
    | some ti => do
      let pev ←
        if type_has_parent ti then do
          let p ← type_get_parent s ti
          match p with
          | some p => object_init_with_type fuel s p.name
          | none => .error (.ub "parent vanished")
        else pure []
      let own := if ti.instance_init then [Event.evInstanceInit tname] else []
      .ok (pev ++ own)

/-- The `object_initialize_with_type` of object.c:396: materialize, check
sizes and abstractness, zero the instance (so `ref = 0` and `free` unset),
bind the class, call `object_ref` (which wraps the count to `2^32 - 1`),
allocate the property table, and run the init chain. -/
def object_initialize_with_type (fuel : Nat) (s : QOMState) (size : Nat)
    (tOpt : Option String) : Except Err (QOMState × ObjectV × List Event) :=
  match tOpt with
  | none => .error (.fatal (.assertFail "type != NULL"))
  | some tname => do
    let (s, ev1) ← type_initialize' fuel s tname
    match pool_lookup s tname with
    | none => .error (.ub "TypeImpl vanished during initialization")
    | some ty =>
      if ty.instance_size < sizeofObject then
        .error (.fatal (.assertFail "type->instance_size >= sizeof(Object)"))
      else if ty.abstract then
        .error (.fatal (.assertFail "type->abstract == false"))
      else if size < ty.instance_size then
        .error (.fatal (.assertFail "size >= type->instance_size"))
      else do
        let o : ObjectV := { klassName := tname, free := false, properties := 0, ref := 0 }
        let o ←
          match object_ref (some o) with
          | some o' => pure o'
          | none => .error (.ub "unreachable")
        let o := { o with properties := s.nextProp }
        let s := { s with nextProp := s.nextProp + 1 }
        let ev2 ← object_init_with_type fuel s tname
        .ok (s, o, ev1 ++ ev2)

/-- The `object_new_with_type` of object.c:446: asserts a type, allocates
`instance_size` bytes, initializes in place and sets `free = g_free`. -/
def object_new_with_type (fuel : Nat) (s : QOMState) (tOpt : Option String) :
    Except Err (QOMState × ObjectV × List Event) :=
  match tOpt with
  | none => .error (.fatal (.assertFail "type != NULL"))
  | some tname => do
    let (s, ev0) ← type_initialize' fuel s tname
    match pool_lookup s tname with
    | none => .error (.ub "TypeImpl vanished during initialization")
    | some ty => do
      let (s, o, ev1) ← object_initialize_with_type fuel s ty.instance_size (some tname)
      .ok (s, { o with free := true }, ev0 ++ ev1)

/-- The `object_new` of object.c:460. -/
def object_new (fuel : Nat) (s : QOMState) (typename : Option String) :
    Except Err (QOMState × ObjectV × List Event) :=
  object_new_with_type fuel s ((type_get_by_name s typename).map (·.name))

/-- The `object_initialize` of object.c:415 (in-place initialization). -/
def object_initialize' (fuel : Nat) (s : QOMState) (size : Nat)
    (typename : Option String) : Except Err (QOMState × ObjectV × List Event) :=
  object_initialize_with_type fuel s size
    ((type_get_by_name s typename).map (·.name))

/-- The `object_deinit` of object.c:422: own `instance_finalize` hook first,
then the parent's, up to the root. -/
def object_deinit : Nat → QOMState → String → Except Err (List Event)
  | 0, _, _ => .error .outOfFuel
  | fuel+1, s, tname =>
    match pool_lookup s tname with
    | none => .error (.ub "object_deinit on dangling TypeImpl")
    | some ti => do
      let own := if ti.instance_finalize then [Event.evInstanceFinalize tname] else []
      let pev ←
        if type_has_parent ti then do
          let p ← type_get_parent s ti
          match p with
          | some p => object_deinit fuel s p.name
          | none => .error (.ub "parent vanished")
        else pure []
      .ok (own ++ pev)

/-- The `object_finalize` of object.c:433: run the finalize chain, assert
the count is zero, then call the stored deallocator if set. -/
def object_finalize (fuel : Nat) (s : QOMState) (o : ObjectV) :
    Except Err (List Event) :=
  match object_get_class s o with
  | none => .error (.ub "obj->class dangling")
  | some k => do
    let ev1 ← object_deinit fuel s k.typeName
    if o.ref ≠ 0 then .error (.fatal (.assertFail "obj->ref == 0"))
    else .ok (ev1 ++ if o.free then [Event.evFree] else [])

/-- The `object_unref` of object.c:673: NULL is a no-op; asserts the count
is non-zero, decrements, and finalizes exactly when the pre-decrement value
was 1 (the `int` cast of a `guint32` equals 1 only for the value 1). -/
def object_unref (fuel : Nat) (s : QOMState) (obj : Option ObjectV) :
    Except Err (Option ObjectV × List Event) :=
  match obj with
  | none => .ok (none, [])
  | some o =>
    if o.ref = 0 then .error (.fatal (.assertFail "obj->ref > 0"))
    else
      let refOld := o.ref
      let o := { o with ref := dec32 o.ref }
      if refOld = 1 then do
        let ev ← object_finalize fuel s o
        .ok (some o, ev)
      else .ok (some o, [])

/-- The `object_dynamic_cast` of object.c:467: delegates to the class cast;
returns the object on success, NULL otherwise. -/
def object_dynamic_cast (fuel : Nat) (s : QOMState) (obj : Option ObjectV)
    (typename : Option String) : Except Err (Option ObjectV) :=
  match obj with
  | none => .ok none
  | some o => do
    let c ← object_class_dynamic_cast fuel s (object_get_class s o) typename
    .ok (if c.isSome then some o else none)

/-- The `object_dynamic_cast_assert` of object.c:476: asserts the object is
non-NULL and returns it WITHOUT performing any cast check. -/
def object_dynamic_cast_assert (s : QOMState) (obj : Option ObjectV)
    (typename : Option String) (file : String) (line : Nat) (func : String) :
    Except Err (Option ObjectV) :=
  match obj with
  | none => .error (.fatal (.assertFail "obj != NULL"))
  | some o => .ok (some o)

/-- The `type_register_static_array` of object.c:144. -/
def type_register_static_array (fuel : Nat) (s : QOMState) :
    List TypeInfo → Except Err QOMState
  | [] => .ok s
  | info :: rest => do
    let (_, s, _) ← type_register_static fuel s info
    type_register_static_array fuel s rest

/-! Specification-side definitions, written from the spec's words, used to
state the claims against the embedded code. -/

/-- Spec side: the parent chain of a type, own name first, root last
(spec §4.6 / glossary "Parent chain"). -/
def parent_chain_names : Nat → QOMState → TypeImpl → Except Err (List String)
  | fuel, s, t =>
    match t.parent with
    | none => .ok [t.name]
    | some p =>
      match pool_lookup s p with
      | none => .error (.fatal (.assertFail "type->parent_type != NULL"))
      | some pt =>
        match fuel with
        | 0 => .error .outOfFuel
        | fuel'+1 => (parent_chain_names fuel' s pt).map (fun l => t.name :: l)

/-- Spec side: equality of the first `sizeof(ObjectClass) + n` bytes of two
class descriptors — the whole header plus the first `n` payload slots
(spec I5's "first `P.class_size` bytes"). -/
def classPrefixEq (c p : ClassDescriptor) (n : Nat) : Prop :=
  c.typeName = p.typeName ∧ c.interfaces = p.interfaces ∧
  c.properties = p.properties ∧ c.concrete_class = p.concrete_class ∧
  c.interface_type = p.interface_type ∧ c.payload.take n = p.payload.take n

instance (c p : ClassDescriptor) (n : Nat) : Decidable (classPrefixEq c p n) := by
  unfold classPrefixEq; infer_instance

/-- Spec side: the ancestors of the type named `n` (the cursor of the
`class_base_init` while-loop), immediate parent first. Mirrors the steps of
`base_init_walk` so adequacy of one transfers to the other. -/
def ancestor_chain : Nat → QOMState → Option String → Except Err (List TypeImpl)
  | _, _, none => .ok []
  | 0, _, some _ => .error .outOfFuel
  | fuel+1, s, some cname =>
    match pool_lookup s cname with
    | none => .error (.ub "base_init walk on dangling TypeImpl")
    | some c => do
      let nxt ← type_get_parent s c
      let rest ← ancestor_chain fuel s (nxt.map (·.name))
      .ok (c :: rest)

/-- Spec side: the fold describing the `class_base_init` while-loop on a
chain of ancestors: each ancestor with a hook mutates the descriptor and is
recorded, immediate parent first. -/
def base_hooks_fold (tname : String) :
    List TypeImpl → ClassDescriptor → ClassDescriptor × List Event
  | [], k => (k, [])
  | c :: rest, k =>
    match c.class_base_init with
    | none => base_hooks_fold tname rest k
    | some h =>
      let (k', evs) := base_hooks_fold tname rest (h k)
      (k', Event.evBaseInit c.name tname k :: evs)

/-- Spec side: per-entry outcomes of the interface scan of
`object_class_dynamic_cast`: for each entry of the interface list, its
synthesized class and whether the target is an ancestor of its synthesized
type. -/
def scan_results (fuel : Nat) (s : QOMState) (target : TypeImpl) :
    List String → Except Err (List (ClassDescriptor × Bool))
  | [] => .ok []
  | e :: rest =>
    match pool_lookup s e with
    | none => .error (.ub "dangling interface entry")
    | some eimpl =>
      match eimpl.klass with
      | none => .error (.ub "interface entry without class")
      | some ek => do
        let b ← type_is_ancestor' fuel s (some eimpl) (some target)
        let rs ← scan_results fuel s target rest
        .ok ((ek, b) :: rs)

/-- Spec side: the accumulator discipline of the interface scan: the last
matching entry's class, or the initial value when no entry matches. -/
def last_match : List (ClassDescriptor × Bool) → Option ClassDescriptor →
    Option ClassDescriptor
  | [], ret => ret
  | (ek, true) :: rest, _ => last_match rest (some ek)
  | (_, false) :: rest, ret => last_match rest ret

/-- Spec side: the `instance_finalize` events of a finalize chain, own
type first, root last: one event per chain member whose hook is set. -/
def hooked_finalizers (s : QOMState) (l : List String) : List Event :=
  (l.filter (fun n =>
      ((pool_lookup s n).map (fun t => t.instance_finalize)).getD false)).map
    Event.evInstanceFinalize

/-- Spec side: the class descriptor of a freshly materialized type at the
end of the interface passes: header re-initialized for the child (its own
type back-pointer, an emptied interface list, a fresh property table), the
`InterfaceClass` fields and the payload prefix byte-copied from the
parent, the rest of the payload zero-filled. -/
def inherited_class (tname : String) (csize : Nat) (pk : ClassDescriptor)
    (pcs : Nat) (prop : Nat) : ClassDescriptor :=
  { typeName := tname, interfaces := [], properties := prop,
    concrete_class := pk.concrete_class, interface_type := pk.interface_type,
    payload := memcpyPrefix (List.replicate csize 0) pk.payload pcs }

/-! Concrete fixture: the registry of the repository's demo (main.c /
base.c) extended with types exercising interfaces, `class_base_init`
chains and `instance_finalize` chains. Everything registers with the
default `OBJECT_NEW_PHASE`, so classes are materialized lazily. -/

/-- The `TypeInfo` of the demo type "base" (base.c): `class_init` writes
the `say` method slot, `instance_init` sets the greeting. -/
def baseInfo : TypeInfo :=
  { name := some "base", parent := some "object", instance_size := 2,
    class_size := 1, instance_init := true,
    class_init := some (fun k => { k with payload := [7] }) }

/-- The demo registry: `object_type_register()` then `Base_register()`
(exactly the startup of main.c). -/
def demoState : QOMState :=
  match (do
      let s ← register_types 4 initState
      type_register_static_array 4 s [baseInfo] : Except Err QOMState) with
  | .ok s => s
  | .error _ => initState

/-- The run of `object_new("base")` on the demo registry (as main.c does). -/
def newBaseRun : Except Err (QOMState × ObjectV × List Event) :=
  object_new 8 demoState (some "base")

/-- The object produced by `object_new("base")` on the demo registry. -/
def objBase : ObjectV :=
  match newBaseRun with
  | .ok (_, o, _) => o
  | .error _ => { klassName := "", free := false, properties := 0, ref := 0 }

/-- The registry state after `object_new("base")`. -/
def stateAfterBase : QOMState :=
  match newBaseRun with
  | .ok (s, _, _) => s
  | .error _ => demoState

/-- Fallback `TypeImpl` for extractor functions. -/
def dummyTypeImpl : TypeImpl :=
  { name := "", class_size := 0, instance_size := 0, class_init := none,
    class_base_init := none, instance_init := false, instance_finalize := false,
    abstract := false, parent := none, klass := none, interfaces := [],
    registered := false }

/-- Fallback `ClassDescriptor` for extractor functions. -/
def dummyClass : ClassDescriptor :=
  { typeName := "", interfaces := [], properties := 0, concrete_class := none,
    interface_type := none, payload := [] }

/-- The registered (still unmaterialized) `TypeImpl` of "base". -/
def baseImpl : TypeImpl :=
  match type_table_lookup demoState "base" with
  | some t => t
  | none => dummyTypeImpl

/-- The run materializing the class of "base" on the demo registry. -/
def matBaseRun : Except Err (QOMState × List Event) :=
  type_initialize' 8 demoState "base"

/-- The registry state with "base" materialized. -/
def stateBaseMat : QOMState :=
  match matBaseRun with
  | .ok (s, _) => s
  | .error _ => demoState

/-- The trace of materializing "base". -/
def evBaseMat : List Event :=
  match matBaseRun with
  | .ok (_, ev) => ev
  | .error _ => []

/-- The materialized `TypeImpl` of "base". -/
def baseImplMat : TypeImpl :=
  match pool_lookup stateBaseMat "base" with
  | some t => t
  | none => dummyTypeImpl

/-- The materialized class descriptor of "base". -/
def kBase : ClassDescriptor :=
  match baseImplMat.klass with
  | some k => k
  | none => dummyClass

/-- A helper building the `TypeImpl`s of the literal interface fixture. -/
def mkImpl (name : String) (class_size instance_size : Nat) (abstract : Bool)
    (parent : Option String) (klass : Option ClassDescriptor)
    (interfaces : List String) (registered : Bool) : TypeImpl :=
  { name := name, class_size := class_size, instance_size := instance_size,
    class_init := none, class_base_init := none, instance_init := false,
    instance_finalize := false, abstract := abstract, parent := parent,
    klass := klass, interfaces := interfaces, registered := registered }

/-- The materialized class of "X" in the interface fixture: its interface
list carries the two synthesized entries. -/
def kX : ClassDescriptor :=
  { typeName := "X", interfaces := ["X::I1", "X::I2"], properties := 2,
    concrete_class := none, interface_type := none, payload := [] }

/-- Literal registry with an interface diamond, as produced by registering
"A" (parent "interface"), "I1" and "I2" (parents "A"), and "X" (parent
"object", declaring "I1" and "I2"), then materializing "X": the pool holds
the two hidden synthesized types "X::I1" and "X::I2" (unregistered), whose
classes carry `concrete_class = "X"` and their `interface_type`. -/
def stateX : QOMState :=
  { pool :=
      [ mkImpl "interface" 1 0 true none
          (some { typeName := "interface", interfaces := [], properties := 3,
                  concrete_class := none, interface_type := none, payload := [0] })
          [] true,
        mkImpl "object" 0 1 true none
          (some { typeName := "object", interfaces := [], properties := 1,
                  concrete_class := none, interface_type := none, payload := [] })
          [] true,
        mkImpl "A" 1 0 true (some "interface")
          (some { typeName := "A", interfaces := [], properties := 4,
                  concrete_class := none, interface_type := none, payload := [0] })
          [] true,
        mkImpl "I1" 1 0 true (some "A")
          (some { typeName := "I1", interfaces := [], properties := 5,
                  concrete_class := none, interface_type := none, payload := [0] })
          [] true,
        mkImpl "I2" 1 0 true (some "A")
          (some { typeName := "I2", interfaces := [], properties := 7,
                  concrete_class := none, interface_type := none, payload := [0] })
          [] true,
        mkImpl "X" 0 2 false (some "object") (some kX) ["I1", "I2"] true,
        mkImpl "X::I1" 1 0 true (some "I1")
          (some { typeName := "X::I1", interfaces := [], properties := 6,
                  concrete_class := some "X", interface_type := some "I1",
                  payload := [0] })
          [] false,
        mkImpl "X::I2" 1 0 true (some "I2")
          (some { typeName := "X::I2", interfaces := [], properties := 8,
                  concrete_class := some "X", interface_type := some "I2",
                  payload := [0] })
          [] false ],
    nextProp := 9, type_interface := some "interface", enumerating_types := false }

/-- Registry with a `class_base_init` chain: "P1" and "P2" carry base
hooks, "T" carries a `class_init`. -/
def chainState : QOMState :=
  match (do
      let s ← register_types 4 initState
      type_register_static_array 4 s
        [ { name := some "P1", parent := some "object", instance_size := 2,
            class_base_init := some (fun k => k) },
          { name := some "P2", parent := some "P1",
            class_base_init := some (fun k => k) },
          { name := some "T", parent := some "P2",
            class_init := some (fun k => k) } ] : Except Err QOMState) with
  | .ok s => s
  | .error _ => initState

/-- Registry with an `instance_finalize` chain "F1"/"F2". -/
def finState : QOMState :=
  match (do
      let s ← register_types 4 initState
      type_register_static_array 4 s
        [ { name := some "F1", parent := some "object", instance_size := 2,
            instance_finalize := true },
          { name := some "F2", parent := some "F1",
            instance_finalize := true } ] : Except Err QOMState) with
  | .ok s => s
  | .error _ => initState

/-- The registered root `TypeImpl` of "object" on the demo registry. -/
def objectImpl : TypeImpl :=
  match type_table_lookup demoState "object" with
  | some t => t
  | none => dummyTypeImpl

/-- Fallback `ObjectV` for extractor functions. -/
def dummyObject : ObjectV :=
  { klassName := "", free := false, properties := 0, ref := 0 }

/-- The object produced by `object_new("F2")` on the finalize registry. -/
def objF2 : ObjectV :=
  match object_new 8 finState (some "F2") with
  | .ok (_, o, _) => o
  | .error _ => dummyObject

/-- The registry after `object_new("F2")` (with "F2" materialized). -/
def stateF2 : QOMState :=
  match object_new 8 finState (some "F2") with
  | .ok (s, _, _) => s
  | .error _ => finState

/-- The materialized `TypeImpl` of "F2". -/
def f2Impl : TypeImpl :=
  match pool_lookup stateF2 "F2" with
  | some t => t
  | none => dummyTypeImpl

/-- The materialized class descriptor of "F2". -/
def kF2 : ClassDescriptor :=
  match f2Impl.klass with
  | some k => k
  | none => dummyClass

/-- The materialized `TypeImpl` of "X" in the interface fixture. -/
def xImpl : TypeImpl :=
  match pool_lookup stateX "X" with
  | some t => t
  | none => dummyTypeImpl

/-- The `TypeImpl` of the common interface ancestor "A". -/
def aImpl : TypeImpl :=
  match type_table_lookup stateX "A" with
  | some t => t
  | none => dummyTypeImpl

/-- The per-entry scan outcomes of casting the class of "X" to "A": both
synthesized entries match, making the cast ambiguous. -/
def rsXA : List (ClassDescriptor × Bool) :=
  match scan_results 8 stateX aImpl kX.interfaces with
  | .ok rs => rs
  | .error _ => []

/-- The demo registry with "object" materialized: the state on which
`type_initialize("base")` performs its parent copy directly. -/
def stateObjMat : QOMState :=
  match type_initialize' 8 demoState "object" with
  | .ok (s, _) => s
  | .error _ => demoState

/-- The materialized root `TypeImpl` of "object". -/
def objImplOM : TypeImpl :=
  match pool_lookup stateObjMat "object" with
  | some t => t
  | none => dummyTypeImpl

/-- The materialized root class descriptor. -/
def kObjOM : ClassDescriptor :=
  match objImplOM.klass with
  | some k => k
  | none => dummyClass

/-- The still-unmaterialized `TypeImpl` of "base" in `stateObjMat`. -/
def baseImplOM : TypeImpl :=
  match pool_lookup stateObjMat "base" with
  | some t => t
  | none => dummyTypeImpl

/-- The resolved class size of "base" (its own `class_size`, the parent
walk of `type_class_get_size` being cut short by a nonzero entry). -/
def csizeB : Nat :=
  match type_class_get_size 7 stateObjMat baseImplOM with
  | .ok n => n
  | .error _ => 0

/-- The resolved instance size of "base". -/
def isizeB : Nat :=
  match type_object_get_size 7 stateObjMat baseImplOM with
  | .ok n => n
  | .error _ => 0

/-- The ancestor chain of "base": just the materialized root. -/
def chainB : List TypeImpl :=
  match ancestor_chain 7 stateObjMat (some "object") with
  | .ok l => l
  | .error _ => []

/-- The parent descriptor recorded by the copy event of the "base"
materialization trace. -/
def srcDBase : ClassDescriptor :=
  match evBaseMat with
  | Event.evCopy _ _ k :: _ => k
  | _ => dummyClass

/-- The descriptor handed to `class_init` by the "base" materialization
trace. -/
def argDBase : ClassDescriptor :=
  match evBaseMat with
  | _ :: Event.evClassInit _ k :: _ => k
  | _ => dummyClass

/-- The materialized class descriptor of "P2" in the hook-chain fixture. -/
def kP2 : ClassDescriptor :=
  { typeName := "P2", interfaces := [], properties := 3,
    concrete_class := none, interface_type := none, payload := [] }

/-- Literal registry as left by materializing "P2" on the hook-chain
registry `chainState` (running `type_initialize("P2")`): "object", "P1"
and "P2" are materialized, "T" is not; "P1" and "P2" carry
`class_base_init` hooks, "T" a `class_init`. -/
def stateP2 : QOMState :=
  { pool :=
      [ { name := "interface", class_size := 1, instance_size := 0,
          class_init := none, class_base_init := none, instance_init := false,
          instance_finalize := false, abstract := true, parent := none,
          klass := none, interfaces := [], registered := true },
        { name := "object", class_size := 0, instance_size := 1,
          class_init := none, class_base_init := none, instance_init := false,
          instance_finalize := false, abstract := true, parent := none,
          klass := some {
            typeName := "object",
            interfaces := [],
            properties := 1,
            concrete_class := none,
            interface_type := none,
            payload := [] },
          interfaces := [], registered := true },
        { name := "P1", class_size := 0, instance_size := 2,
          class_init := none, class_base_init := some (fun k => k),
          instance_init := false, instance_finalize := false,
          abstract := false, parent := some "object",
          klass := some {
            typeName := "P1",
            interfaces := [],
            properties := 2,
            concrete_class := none,
            interface_type := none,
            payload := [] },
          interfaces := [], registered := true },
        { name := "P2", class_size := 0, instance_size := 2,
          class_init := none, class_base_init := some (fun k => k),
          instance_init := false, instance_finalize := false,
          abstract := false, parent := some "P1", klass := some kP2,
          interfaces := [], registered := true },
        { name := "T", class_size := 0, instance_size := 0,
          class_init := some (fun k => k), class_base_init := none,
          instance_init := false, instance_finalize := false,
          abstract := false, parent := some "P2", klass := none,
          interfaces := [], registered := true } ],
    nextProp := 4, type_interface := some "interface",
    enumerating_types := false }

/-- The still-unmaterialized `TypeImpl` of "T" in `stateP2`. -/
def tImplC : TypeImpl :=
  match pool_lookup stateP2 "T" with
  | some t => t
  | none => dummyTypeImpl

/-- The materialized `TypeImpl` of "P2". -/
def p2Impl : TypeImpl :=
  match pool_lookup stateP2 "P2" with
  | some t => t
  | none => dummyTypeImpl

/-- The resolved class size of "T". -/
def csizeT : Nat :=
  match type_class_get_size 7 stateP2 tImplC with
  | .ok n => n
  | .error _ => 0

/-- The resolved instance size of "T". -/
def isizeT : Nat :=
  match type_object_get_size 7 stateP2 tImplC with
  | .ok n => n
  | .error _ => 0

/-- The ancestor chain of "T": "P2", "P1", then the root. -/
def chainT : List TypeImpl :=
  match ancestor_chain 7 stateP2 (some "P2") with
  | .ok l => l
  | .error _ => []

/-! Helper lemmas about the pool. -/

theorem memcpyPrefix_take (dst src : List Nat) (n : Nat) (h : n ≤ src.length) :
    (memcpyPrefix dst src n).take n = src.take n := by
  unfold memcpyPrefix
  rw [List.take_left' (by rw [List.length_take]; omega)]

theorem pool_lookup_name {s : QOMState} {n : String} {t : TypeImpl}
    (h : pool_lookup s n = some t) : t.name = n := by
  unfold pool_lookup at h
  simpa using List.find?_some h

theorem find_map_name_preserving (l : List TypeImpl) (n m : String)
    (f : TypeImpl → TypeImpl) (hf : ∀ t, (f t).name = t.name) :
    (l.map (fun t => if t.name == n then f t else t)).find? (fun t => t.name == m) =
      (l.find? (fun t => t.name == m)).map (fun t => if t.name == n then f t else t) := by
  induction l with
  | nil => rfl
  | cons t ts ih =>
    have hgt : (if t.name == n then f t else t).name = t.name := by
      cases hn : t.name == n <;> simp [hf, hn]
    simp only [List.map_cons, List.find?_cons, hgt]
    cases hm : t.name == m
    · simpa using ih
    · simp

theorem pool_lookup_update (s : QOMState) (n m : String) (f : TypeImpl → TypeImpl)
    (hf : ∀ t, (f t).name = t.name) :
    pool_lookup (pool_update s n f) m =
      (pool_lookup s m).map (fun t => if t.name == n then f t else t) :=
  find_map_name_preserving s.pool n m f hf

theorem pool_lookup_update_of_ne {s : QOMState} {n m : String}
    (f : TypeImpl → TypeImpl) (hf : ∀ t, (f t).name = t.name) (h : m ≠ n) :
    pool_lookup (pool_update s n f) m = pool_lookup s m := by
  rw [pool_lookup_update s n m f hf]
  cases hl : pool_lookup s m with
  | none => rfl
  | some t =>
    have : t.name = m := pool_lookup_name hl
    simp [this, h]

theorem pool_lookup_update_self {s : QOMState} {n : String} {t : TypeImpl}
    (f : TypeImpl → TypeImpl) (hf : ∀ t, (f t).name = t.name)
    (h : pool_lookup s n = some t) :
    pool_lookup (pool_update s n f) n = some (f t) := by
  rw [pool_lookup_update s n n f hf, h]
  have : t.name = n := pool_lookup_name h
  simp [this]

theorem pool_lookup_setKlass_of_ne {s : QOMState} {n m : String}
    (k : ClassDescriptor) (h : m ≠ n) :
    pool_lookup (setKlass s n k) m = pool_lookup s m :=
  pool_lookup_update_of_ne _ (fun _ => rfl) h

theorem pool_lookup_setKlass_self {s : QOMState} {n : String} {t : TypeImpl}
    (k : ClassDescriptor) (h : pool_lookup s n = some t) :
    pool_lookup (setKlass s n k) n = some { t with klass := some k } :=
  pool_lookup_update_self _ (fun _ => rfl) h

theorem pool_lookup_updateKlass_of_ne {s : QOMState} {n m : String}
    (f : ClassDescriptor → ClassDescriptor) (h : m ≠ n) :
    pool_lookup (updateKlass s n f) m = pool_lookup s m :=
  pool_lookup_update_of_ne _ (fun _ => rfl) h

theorem pool_lookup_updateKlass_self {s : QOMState} {n : String} {t : TypeImpl}
    (f : ClassDescriptor → ClassDescriptor) (h : pool_lookup s n = some t) :
    pool_lookup (updateKlass s n f) n = some { t with klass := t.klass.map f } :=
  pool_lookup_update_self _ (fun _ => rfl) h

theorem pool_lookup_nextProp (s : QOMState) (p : Nat) (m : String) :
    pool_lookup { s with nextProp := p } m = pool_lookup s m := rfl

theorem find_map_registered (l : List TypeImpl) (n : String) (t : TypeImpl)
    (h : l.find? (fun x => x.name == n) = some t) :
    (l.map (fun x => if x.name == n then { x with registered := true } else x)).find?
        (fun x => x.registered && x.name == n) =
      some { t with registered := true } := by
  induction l with
  | nil => simp at h
  | cons x xs ih =>
    by_cases hxp : x.name = n
    · simp only [List.find?_cons, show (x.name == n) = true by simp [hxp]] at h
      have hxt : x = t := by simpa using h
      subst hxt
      simp [List.find?_cons, hxp]
    · have hxb : (x.name == n) = false := by simp [hxp]
      simp only [List.find?_cons, hxb] at h
      simp only [List.map_cons, List.find?_cons]
      have h1 : ((if x.name == n then ({ x with registered := true } : TypeImpl) else x)) = x := by
        simp [hxb]
      rw [h1]
      have h2 : (x.registered && (x.name == n)) = false := by simp [hxb]
      simp only [h2]
      exact ih h

theorem table_lookup_after_add {s : QOMState} {n : String} {t : TypeImpl}
    (h : pool_lookup s n = some t) :
    type_table_lookup (pool_update s n (fun x => { x with registered := true })) n =
      some { t with registered := true } :=
  find_map_registered s.pool n t h

theorem pool_lookup_append_fresh {s : QOMState} {n : String} {ti : TypeImpl}
    (h : pool_lookup s n = none) (hn : ti.name = n) :
    pool_lookup { s with pool := s.pool ++ [ti] } n = some ti := by
  unfold pool_lookup at h ⊢
  rw [List.find?_append, h]
  simp [hn]

theorem type_new_ok {s : QOMState} {info : TypeInfo} {n : String} {s' : QOMState}
    (h : type_new s info = .ok (n, s')) :
    info.name = some n ∧ type_table_lookup s n = none ∧ pool_lookup s n = none ∧
    ∃ ti : TypeImpl, ti.name = n ∧ s'.pool = s.pool ++ [ti] ∧
      s'.nextProp = s.nextProp ∧ s'.enumerating_types = s.enumerating_types ∧
      pool_lookup s' n = some ti := by
  unfold type_new at h
  cases hn : info.name with
  | none => simp only [hn] at h; exact absurd h (by simp)
  | some m =>
    simp only [hn] at h
    cases hl : type_table_lookup s m with
    | some t => simp only [hl] at h; exact absurd h (by simp)
    | none =>
      simp only [hl] at h
      by_cases hp : (pool_lookup s m).isSome
      · rw [if_pos hp] at h; exact absurd h (by simp)
      · rw [if_neg hp] at h
        have hps : pool_lookup s m = none := Option.not_isSome_iff_eq_none.mp hp
        injection h with hpair
        have hmn : m = n := congrArg Prod.fst hpair
        have hs' := congrArg Prod.snd hpair
        subst hmn
        subst hs'
        exact ⟨rfl, hl, hps,
          { name := m, class_size := info.class_size,
            instance_size := info.instance_size, class_init := info.class_init,
            class_base_init := info.class_base_init,
            instance_init := info.instance_init,
            instance_finalize := info.instance_finalize,
            abstract := info.abstract, parent := info.parent, klass := none,
            interfaces := info.interfaces, registered := false },
          rfl, rfl, rfl, rfl, pool_lookup_append_fresh hps rfl⟩

theorem type_table_lookup_name {s : QOMState} {n : String} {t : TypeImpl}
    (h : type_table_lookup s n = some t) : t.name = n := by
  unfold type_table_lookup at h
  have := List.find?_some h
  simp at this
  exact this.2

theorem parent_chain_names_head {fuel : Nat} {s : QOMState} {t : TypeImpl}
    {l : List String} (h : parent_chain_names fuel s t = .ok l) :
    ∃ l', l = t.name :: l' := by
  unfold parent_chain_names at h
  split at h
  · exact ⟨[], by simpa using h.symm⟩
  · split at h
    · simp at h
    · split at h
      · simp at h
      · cases hc : parent_chain_names _ _ _ with
        | error e => rw [hc] at h; simp [Except.map] at h
        | ok l' =>
          rw [hc] at h
          simp only [Except.map] at h
          exact ⟨l', by simpa using h.symm⟩

theorem ancestor_walk_eq_mem (fuel : Nat) (s : QOMState) (t tgt : TypeImpl)
    (l : List String) (h : parent_chain_names fuel s t = .ok l) :
    ancestor_walk fuel s (some t) tgt = .ok (decide (tgt.name ∈ l)) := by
  induction fuel generalizing t l with
  | zero =>
    unfold parent_chain_names at h
    cases hp : t.parent with
    | none =>
      simp only [hp] at h
      injection h with h1
      subst h1
      unfold ancestor_walk
      simp only [hp]
      by_cases he : t.name = tgt.name
      · simp [he]
      · have he2 : ¬ (tgt.name = t.name) := fun hh => he hh.symm
        simp [he, he2]
    | some p =>
      simp only [hp] at h
      cases hq : pool_lookup s p with
      | none => simp only [hq] at h; simp at h
      | some pt => simp only [hq] at h; simp at h
  | succ f ih =>
    unfold parent_chain_names at h
    cases hp : t.parent with
    | none =>
      simp only [hp] at h
      injection h with h1
      subst h1
      unfold ancestor_walk
      simp only [hp]
      by_cases he : t.name = tgt.name
      · simp [he]
      · have he2 : ¬ (tgt.name = t.name) := fun hh => he hh.symm
        simp [he, he2]
    | some p =>
      simp only [hp] at h
      cases hq : pool_lookup s p with
      | none => simp only [hq] at h; simp at h
      | some pt =>
        simp only [hq] at h
        cases hc : parent_chain_names f s pt with
        | error e => rw [hc] at h; simp [Except.map] at h
        | ok l' =>
          rw [hc] at h
          simp only [Except.map] at h
          injection h with h1
          subst h1
          unfold ancestor_walk
          simp only [hp, hq]
          by_cases he : t.name = tgt.name
          · rw [if_pos he]
            have hm : tgt.name ∈ t.name :: l' := by rw [he]; exact List.mem_cons_self _ _
            simp [hm]
          · rw [if_neg he]
            have he2 : ¬ (tgt.name = t.name) := fun hh => he hh.symm
            rw [ih pt l' hc]
            simp [List.mem_cons, he2]

theorem object_deinit_spec (fuel : Nat) (s : QOMState) (tname : String)
    (t : TypeImpl) (l : List String)
    (ht : pool_lookup s tname = some t)
    (hc : parent_chain_names fuel s t = .ok l) :
    object_deinit (fuel+1) s tname = .ok (hooked_finalizers s l) := by
  induction fuel generalizing tname t l with
  | zero =>
    unfold parent_chain_names at hc
    cases hp : t.parent with
    | none =>
      simp only [hp] at hc
      injection hc with h1
      subst h1
      have hn : t.name = tname := pool_lookup_name ht
      unfold object_deinit
      simp only [ht]
      unfold hooked_finalizers
      cases hf : t.instance_finalize <;>
        simp [type_has_parent, hp, List.filter, hn, ht, hf]
    | some p =>
      simp only [hp] at hc
      cases hq : pool_lookup s p with
      | none => simp only [hq] at hc; simp at hc
      | some pt => simp only [hq] at hc; simp at hc
  | succ f ih =>
    unfold parent_chain_names at hc
    cases hp : t.parent with
    | none =>
      simp only [hp] at hc
      injection hc with h1
      subst h1
      have hn : t.name = tname := pool_lookup_name ht
      unfold object_deinit
      simp only [ht]
      unfold hooked_finalizers
      cases hf : t.instance_finalize <;>
        simp [type_has_parent, hp, List.filter, hn, ht, hf]
    | some p =>
      simp only [hp] at hc
      cases hq : pool_lookup s p with
      | none => simp only [hq] at hc; simp at hc
      | some pt =>
        simp only [hq] at hc
        cases hcc : parent_chain_names f s pt with
        | error e => rw [hcc] at hc; simp [Except.map] at hc
        | ok l' =>
          rw [hcc] at hc
          simp only [Except.map] at hc
          injection hc with h1
          subst h1
          have hn : t.name = tname := pool_lookup_name ht
          have hpn : pt.name = p := pool_lookup_name hq
          have hrec := ih pt.name pt l' (by rw [hpn]; exact hq) hcc
          unfold object_deinit
          simp only [ht]
          have hhp : type_has_parent t = true := by simp [type_has_parent, hp]
          simp only [hhp, if_pos]
          unfold type_get_parent
          simp only [hp, hq, Bind.bind, Except.bind, hrec]
          unfold hooked_finalizers
          cases hf : t.instance_finalize <;> simp [List.filter, hn, ht, hf]

theorem last_match_of_no_match (rs : List (ClassDescriptor × Bool))
    (ret : Option ClassDescriptor) (h : rs.filter (fun r => r.2) = []) :
    last_match rs ret = ret := by
  induction rs generalizing ret with
  | nil => rfl
  | cons r rest ih =>
    obtain ⟨ek, b⟩ := r
    cases b with
    | true => simp [List.filter_cons] at h
    | false =>
      simp only [List.filter_cons] at h
      simp only [last_match]
      exact ih ret (by simpa using h)

theorem last_match_of_single (rs : List (ClassDescriptor × Bool))
    (ret : Option ClassDescriptor) (ek : ClassDescriptor)
    (h : (rs.filter (fun r => r.2)).map Prod.fst = [ek]) :
    last_match rs ret = some ek := by
  induction rs generalizing ret with
  | nil => simp at h
  | cons r rest ih =>
    obtain ⟨k1, b⟩ := r
    cases b with
    | true =>
      have hft : (((k1, true) :: rest).filter (fun r => r.2)) =
          (k1, true) :: rest.filter (fun r => r.2) := by simp
      rw [hft, List.map_cons] at h
      injection h with h1 h2
      have h3 : rest.filter (fun r => r.2) = [] := List.map_eq_nil_iff.mp h2
      simp only [last_match]
      rw [last_match_of_no_match rest _ h3]
      exact congrArg some h1
    | false =>
      have hff : (((k1, false) :: rest).filter (fun r => r.2)) =
          rest.filter (fun r => r.2) := by simp
      rw [hff] at h
      simp only [last_match]
      exact ih ret h

theorem cast_iface_scan_spec (fuel : Nat) (s : QOMState) (target : TypeImpl)
    (entries : List String) (rs : List (ClassDescriptor × Bool))
    (h : scan_results fuel s target entries = .ok rs) :
    ∀ (found : Nat) (ret : Option ClassDescriptor),
      cast_iface_scan fuel s target entries found ret =
        .ok (found + (rs.filter (fun r => r.2)).length, last_match rs ret) := by
  induction entries generalizing rs with
  | nil =>
    intro found ret
    unfold scan_results at h
    injection h with h1
    subst h1
    simp [cast_iface_scan, last_match]
  | cons e rest ih =>
    intro found ret
    unfold scan_results at h
    cases he : pool_lookup s e with
    | none => simp only [he] at h; simp at h
    | some eimpl =>
      simp only [he] at h
      cases hek : eimpl.klass with
      | none => simp only [hek] at h; simp at h
      | some ek =>
        simp only [hek] at h
        cases hb : type_is_ancestor' fuel s (some eimpl) (some target) with
        | error err => rw [hb] at h; simp [Bind.bind, Except.bind] at h
        | ok b =>
          rw [hb] at h
          simp only [Bind.bind, Except.bind] at h
          cases hsc : scan_results fuel s target rest with
          | error err => rw [hsc] at h; simp at h
          | ok rs' =>
            rw [hsc] at h
            simp only [] at h
            injection h with h1
            subst h1
            unfold cast_iface_scan
            simp only [he, hek, hb, Bind.bind, Except.bind]
            cases b with
            | true =>
              rw [if_pos rfl]
              rw [ih rs' hsc (found + 1) (some ek)]
              have hft : (((ek, true) :: rs').filter (fun r => r.2)) =
                  (ek, true) :: rs'.filter (fun r => r.2) := by simp
              have hlm : last_match ((ek, true) :: rs') ret =
                  last_match rs' (some ek) := rfl
              rw [hft, hlm, List.length_cons]
              have harith : found + 1 + (rs'.filter (fun r => r.2)).length =
                  found + ((rs'.filter (fun r => r.2)).length + 1) := by omega
              rw [harith]
            | false =>
              rw [if_neg (show ¬(false = true) by decide)]
              rw [ih rs' hsc found ret]
              have hff : (((ek, false) :: rs').filter (fun r => r.2)) =
                  rs'.filter (fun r => r.2) := by simp
              have hlm : last_match ((ek, false) :: rs') ret =
                  last_match rs' ret := rfl
              rw [hff, hlm]

theorem type_get_parent_congr {s s' : QOMState} {tname : String} (c : TypeImpl)
    (hag : ∀ m, m ≠ tname → pool_lookup s' m = pool_lookup s m)
    (hp : ∀ p, c.parent = some p → p ≠ tname) :
    type_get_parent s' c = type_get_parent s c := by
  unfold type_get_parent
  cases hc : c.parent with
  | none => rfl
  | some p =>
    have hpt := hag p (hp p hc)
    simp [hpt]

theorem ancestor_chain_cursor_name {fuel : Nat} {s : QOMState} {cname : String}
    {chain : List TypeImpl} (h : ancestor_chain fuel s (some cname) = .ok chain) :
    ∃ c rest, chain = c :: rest ∧ pool_lookup s cname = some c ∧ c.name = cname := by
  cases fuel with
  | zero => simp [ancestor_chain] at h
  | succ f =>
    unfold ancestor_chain at h
    cases hc : pool_lookup s cname with
    | none => simp only [hc] at h; simp at h
    | some c =>
      simp only [hc, Bind.bind, Except.bind] at h
      cases hg : type_get_parent s c with
      | error e => simp only [hg] at h; simp at h
      | ok nxt =>
        simp only [hg] at h
        cases hr : ancestor_chain f s (nxt.map (fun t => t.name)) with
        | error e => simp only [hr] at h; simp at h
        | ok rest =>
          simp only [hr] at h
          injection h with h1
          exact ⟨c, rest, h1.symm, rfl, pool_lookup_name hc⟩

theorem ancestor_chain_congr (fuel : Nat) (s s' : QOMState) (tname : String)
    (hag : ∀ m, m ≠ tname → pool_lookup s' m = pool_lookup s m) :
    ∀ (cur : Option String) (chain : List TypeImpl),
      ancestor_chain fuel s cur = .ok chain →
      tname ∉ chain.map (fun c => c.name) →
      ancestor_chain fuel s' cur = .ok chain := by
  induction fuel with
  | zero =>
    intro cur chain h hnn
    cases cur with
    | none => exact h
    | some cname => simp [ancestor_chain] at h
  | succ f ih =>
    intro cur chain h hnn
    cases cur with
    | none => exact h
    | some cname =>
      obtain ⟨c, rest, hsh, hc, hcn⟩ := ancestor_chain_cursor_name h
      subst hsh
      have hct : cname ≠ tname := by
        intro he
        exact hnn (by simp [← he, ← hcn])
      unfold ancestor_chain at h ⊢
      simp only [hc] at h
      rw [hag cname hct, hc]
      simp only [Bind.bind, Except.bind] at h ⊢
      cases hg : type_get_parent s c with
      | error e => simp only [hg] at h; simp at h
      | ok nxt =>
        simp only [hg] at h
        cases hr : ancestor_chain f s (nxt.map (fun t => t.name)) with
        | error e => simp only [hr] at h; simp at h
        | ok rest' =>
          simp only [hr] at h
          injection h with h1
          rw [(List.cons.inj h1).2] at hr
          have hgp : ∀ p, c.parent = some p → p ≠ tname := by
            intro p hp he
            subst he
            unfold type_get_parent at hg
            simp only [hp] at hg
            cases hq : pool_lookup s p with
            | none => simp only [hq] at hg; simp at hg
            | some pnext =>
              simp only [hq] at hg
              injection hg with hg1
              obtain ⟨c2, rest2, hsh2, hc2, hcn2⟩ :=
                ancestor_chain_cursor_name (by
                  rw [← hg1] at hr
                  simpa using hr)
              apply hnn
              rw [hsh2]
              have hc2p : c2.name = p := by rw [hcn2]; exact pool_lookup_name hq
              exact List.mem_map.mpr ⟨c2, by simp, hc2p⟩
          have hnn' : tname ∉ rest.map (fun c => c.name) := by
            intro hm
            exact hnn (by simp [hm])
          simp only [type_get_parent_congr c hag hgp, hg,
            ih (nxt.map (fun t => t.name)) rest hr hnn']

theorem base_hooks_fold_tags (tname : String) :
    ∀ (chain : List TypeImpl) (k : ClassDescriptor),
      (base_hooks_fold tname chain k).2.map Event.tag =
        (chain.filter (fun c => c.class_base_init.isSome)).map
          (fun c => EventTag.tBaseInit c.name tname) := by
  intro chain
  induction chain with
  | nil => intro k; rfl
  | cons c rest ih =>
    intro k
    cases hcb : c.class_base_init with
    | none => simp [base_hooks_fold, hcb, List.filter_cons, ih]
    | some h => simp [base_hooks_fold, hcb, List.filter_cons, ih, Event.tag]

theorem base_hooks_fold_no_hooks (tname : String) :
    ∀ (chain : List TypeImpl) (k : ClassDescriptor),
      (∀ c ∈ chain, c.class_base_init = none) →
      base_hooks_fold tname chain k = (k, []) := by
  intro chain
  induction chain with
  | nil => intro k _; rfl
  | cons c rest ih =>
    intro k hno
    have hc : c.class_base_init = none := hno c (by simp)
    simp only [base_hooks_fold, hc]
    exact ih k (fun c hc => hno c (by simp [hc]))

theorem base_init_walk_spec (fuel : Nat) (s0 : QOMState) (tname : String) :
    ∀ (s : QOMState) (cur : Option String) (chain : List TypeImpl)
      (t : TypeImpl) (k : ClassDescriptor),
      (∀ m, m ≠ tname → pool_lookup s m = pool_lookup s0 m) →
      ancestor_chain fuel s0 cur = .ok chain →
      tname ∉ chain.map (fun c => c.name) →
      pool_lookup s tname = some t →
      t.klass = some k →
      ∃ s', base_init_walk fuel s tname cur =
          .ok (s', (base_hooks_fold tname chain k).2) ∧
        pool_lookup s' tname =
          some { t with klass := some (base_hooks_fold tname chain k).1 } ∧
        (∀ m, m ≠ tname → pool_lookup s' m = pool_lookup s0 m) := by
  induction fuel with
  | zero =>
    intro s cur chain t k hag hch hnn ht hk
    cases cur with
    | none =>
      have hce : chain = [] := by simpa [ancestor_chain] using hch.symm
      subst hce
      refine ⟨s, rfl, ?_, hag⟩
      simp only [base_hooks_fold]
      rw [← hk]
      exact ht
    | some cname => simp [ancestor_chain] at hch
  | succ f ih =>
    intro s cur chain t k hag hch hnn ht hk
    cases cur with
    | none =>
      have hce : chain = [] := by simpa [ancestor_chain] using hch.symm
      subst hce
      refine ⟨s, rfl, ?_, hag⟩
      simp only [base_hooks_fold]
      rw [← hk]
      exact ht
    | some cname =>
      obtain ⟨c, rest, hsh, hc0, hcn⟩ := ancestor_chain_cursor_name hch
      subst hsh
      have hct : cname ≠ tname := by
        intro he
        exact hnn (by simp [← he, ← hcn])
      -- decompose the chain step on s0
      unfold ancestor_chain at hch
      simp only [hc0, Bind.bind, Except.bind] at hch
      cases hg : type_get_parent s0 c with
      | error e => simp only [hg] at hch; simp at hch
      | ok nxt =>
        simp only [hg] at hch
        cases hr : ancestor_chain f s0 (nxt.map (fun x => x.name)) with
        | error e => simp only [hr] at hch; simp at hch
        | ok rest' =>
          simp only [hr] at hch
          injection hch with h1
          rw [(List.cons.inj h1).2] at hr
          have hgp : ∀ p, c.parent = some p → p ≠ tname := by
            intro p hp he
            subst he
            unfold type_get_parent at hg
            simp only [hp] at hg
            cases hq : pool_lookup s0 p with
            | none => simp only [hq] at hg; simp at hg
            | some pnext =>
              simp only [hq] at hg
              injection hg with hg1
              obtain ⟨c2, rest2, hsh2, hc2, hcn2⟩ :=
                ancestor_chain_cursor_name (by
                  rw [← hg1] at hr
                  simpa using hr)
              apply hnn
              rw [hsh2]
              have hc2p : c2.name = p := by rw [hcn2]; exact pool_lookup_name hq
              exact List.mem_map.mpr ⟨c2, by simp, hc2p⟩
          have hnn' : tname ∉ rest.map (fun c => c.name) := by
            intro hm
            exact hnn (by simp [hm])
          unfold base_init_walk
          have hcs : pool_lookup s cname = some c := by rw [hag cname hct, hc0]
          simp only [hcs]
          cases hcb : c.class_base_init with
          | none =>
            have hgc : type_get_parent s c = .ok nxt := by
              rw [type_get_parent_congr c hag hgp]; exact hg
            obtain ⟨s', hw, hl, hag'⟩ :=
              ih s (nxt.map (fun x => x.name)) rest t k hag hr hnn' ht hk
            refine ⟨s', ?_, ?_, hag'⟩
            · simp only [Bind.bind, Except.bind, Pure.pure, Except.pure, hgc,
                hw, base_hooks_fold, hcb, List.nil_append]
            · simp only [base_hooks_fold, hcb]
              exact hl
          | some hf =>
            have hs2ag : ∀ m, m ≠ tname →
                pool_lookup (setKlass s tname (hf k)) m = pool_lookup s0 m := by
              intro m hm
              rw [pool_lookup_setKlass_of_ne _ hm]
              exact hag m hm
            have hgc : type_get_parent (setKlass s tname (hf k)) c = .ok nxt := by
              rw [type_get_parent_congr c hs2ag hgp]; exact hg
            have ht2 : pool_lookup (setKlass s tname (hf k)) tname =
                some { t with klass := some (hf k) } :=
              pool_lookup_setKlass_self _ ht
            obtain ⟨s', hw, hl, hag'⟩ :=
              ih (setKlass s tname (hf k)) (nxt.map (fun x => x.name)) rest
                { t with klass := some (hf k) } (hf k) hs2ag hr hnn' ht2 rfl
            refine ⟨s', ?_, ?_, hag'⟩
            · simp only [ht, hk, Bind.bind, Except.bind, Pure.pure, Except.pure,
                hgc, hw, base_hooks_fold, hcb, List.singleton_append,
                List.cons_append, List.nil_append]
              rw [hcn]
            · simp only [base_hooks_fold, hcb]
              exact hl

/-- Symbolic execution of `type_initialize` (object.c:315) on a type whose
parent is already materialized and whose interface lists (its own and its
parent class's) are empty: the run copies the parent class, re-initializes
the header for the child, walks the `class_base_init` hooks immediate
parent first, and ends with the type's own `class_init`. -/
theorem type_initialize_straightline_spec (fuel : Nat) (s : QOMState)
    (tname pname : String) (ti pt : TypeImpl) (pk : ClassDescriptor)
    (csize isize : Nat) (chain : List TypeImpl)
    (ht : pool_lookup s tname = some ti)
    (hkn : ti.klass = none)
    (hpar : ti.parent = some pname)
    (hifo : ti.interfaces = [])
    (hpt : pool_lookup s pname = some pt)
    (hptk : pt.klass = some pk)
    (hpki : pk.interfaces = [])
    (hcs : type_class_get_size fuel s ti = .ok csize)
    (his : type_object_get_size fuel s ti = .ok isize)
    (hsz : pt.class_size ≤ csize)
    (hch : ancestor_chain fuel s (some pname) = .ok chain)
    (hnn : tname ∉ chain.map (fun c => c.name)) :
    ∃ s', type_initialize' (fuel+1) s tname =
      .ok (s', Event.evCopy pname tname pk ::
        ((base_hooks_fold tname chain
            (inherited_class tname csize pk pt.class_size s.nextProp)).2 ++
          (match ti.class_init with
           | some _ => [Event.evClassInit tname
               (base_hooks_fold tname chain
                 (inherited_class tname csize pk pt.class_size s.nextProp)).1]
           | none => []))) := by
  obtain ⟨c0, rest0, hsh0, hc00, hcn0⟩ := ancestor_chain_cursor_name hch
  have hpn_ne : pname ≠ tname := by
    intro he
    apply hnn
    rw [hsh0]
    exact List.mem_map.mpr ⟨c0, by simp, by rw [hcn0, he]⟩
  cases fuel with
  | zero => simp [ancestor_chain] at hch
  | succ f =>
    unfold type_initialize'
    simp only [ht, hkn, Option.isSome_none, Bool.false_eq_true, if_false,
      hcs, his, Bind.bind, Except.bind]
    have hs1p : ∀ (g : TypeImpl → TypeImpl), (∀ x, (g x).name = x.name) →
        pool_lookup (pool_update s tname g) pname = some pt := by
      intro g hg
      rw [pool_lookup_update_of_ne g hg hpn_ne]
      exact hpt
    have hs1t : ∀ (g : TypeImpl → TypeImpl), (∀ x, (g x).name = x.name) →
        pool_lookup (pool_update s tname g) tname = some (g ti) := by
      intro g hg
      exact pool_lookup_update_self g hg ht
    have hptn : pt.name = pname := pool_lookup_name hpt
    have hpinit : ∀ (s' : QOMState), pool_lookup s' pname = some pt →
        type_initialize' (f+1) s' pname = .ok (s', []) := by
      intro s' h
      unfold type_initialize'
      simp [h, hptk]
    simp only [type_get_parent, hpar, hptn]
    have h1p : pool_lookup (pool_update s tname (fun t =>
        { t with
          class_size := csize,
          instance_size := isize,
          abstract := ti.abstract || isize == 0,
          klass := some {
            typeName := "",
            interfaces := [],
            properties := 0,
            concrete_class := none,
            interface_type := none,
            payload := List.replicate csize 0 } })) pname = some pt :=
      hs1p _ (fun _ => rfl)
    have h1t : pool_lookup (pool_update s tname (fun t =>
        { t with
          class_size := csize,
          instance_size := isize,
          abstract := ti.abstract || isize == 0,
          klass := some {
            typeName := "",
            interfaces := [],
            properties := 0,
            concrete_class := none,
            interface_type := none,
            payload := List.replicate csize 0 } })) tname =
        some { ti with
          class_size := csize,
          instance_size := isize,
          abstract := ti.abstract || isize == 0,
          klass := some {
            typeName := "",
            interfaces := [],
            properties := 0,
            concrete_class := none,
            interface_type := none,
            payload := List.replicate csize 0 } } :=
      hs1t _ (fun _ => rfl)
    simp only [h1p, hptn, hpinit, h1t]
    have hlt : ¬ (csize < pt.class_size) := Nat.not_lt.mpr hsz
    simp only [if_neg hlt, hptk]
    generalize hS1 : (pool_update s tname (fun t =>
        { t with
          class_size := csize,
          instance_size := isize,
          abstract := ti.abstract || isize == 0,
          klass := some {
            typeName := "",
            interfaces := [],
            properties := 0,
            concrete_class := none,
            interface_type := none,
            payload := List.replicate csize 0 } })) = S1
    rw [hS1] at h1p h1t
    generalize hKc : ({
        typeName := pk.typeName,
        interfaces := pk.interfaces,
        properties := pk.properties,
        concrete_class := pk.concrete_class,
        interface_type := pk.interface_type,
        payload := memcpyPrefix (List.replicate csize 0) pk.payload
            pt.class_size } : ClassDescriptor) = Kc
    have hsetn : ∀ (k' : ClassDescriptor),
        (setKlass S1 tname k').nextProp = s.nextProp := by
      intro k'
      rw [← hS1]
      rfl
    simp only [hsetn, hpki]
    have h2t := pool_lookup_setKlass_self Kc h1t
    have h4t := pool_lookup_updateKlass_self (fun k =>
      ({ typeName := k.typeName, interfaces := [], properties := s.nextProp,
         concrete_class := k.concrete_class, interface_type := k.interface_type,
         payload := k.payload } : ClassDescriptor)) h2t
    simp only [Option.map_some'] at h4t
    have h4ag : ∀ m, m ≠ tname →
        pool_lookup (updateKlass (setKlass S1 tname Kc) tname (fun k =>
          ({ typeName := k.typeName, interfaces := [], properties := s.nextProp,
             concrete_class := k.concrete_class,
             interface_type := k.interface_type,
             payload := k.payload } : ClassDescriptor))) m = pool_lookup s m := by
      intro m hm
      rw [pool_lookup_updateKlass_of_ne _ hm, pool_lookup_setKlass_of_ne _ hm]
      rw [← hS1]
      exact pool_lookup_update_of_ne _ (fun _ => rfl) hm
    generalize hS4 : updateKlass (setKlass S1 tname Kc) tname (fun k =>
      ({ typeName := k.typeName, interfaces := [], properties := s.nextProp,
         concrete_class := k.concrete_class, interface_type := k.interface_type,
         payload := k.payload } : ClassDescriptor)) = S4m
    rw [hS4] at h4t h4ag
    simp only [init_parent_ifaces, hifo, init_own_ifaces]
    have h4t' := (pool_lookup_nextProp S4m (S4m.nextProp + 1) tname).trans h4t
    have h5t := pool_lookup_updateKlass_self (fun k =>
      ({
        typeName := tname,
        interfaces := k.interfaces,
        properties := k.properties,
        concrete_class := k.concrete_class,
        interface_type := k.interface_type,
        payload := k.payload } : ClassDescriptor)) h4t'
    simp only [Option.map_some'] at h5t
    have h5ag : ∀ m, m ≠ tname →
        pool_lookup (updateKlass { S4m with nextProp := S4m.nextProp + 1 } tname
          (fun k => ({
            typeName := tname,
            interfaces := k.interfaces,
            properties := k.properties,
            concrete_class := k.concrete_class,
            interface_type := k.interface_type,
            payload := k.payload } : ClassDescriptor))) m = pool_lookup s m := by
      intro m hm
      rw [pool_lookup_updateKlass_of_ne _ hm, pool_lookup_nextProp]
      exact h4ag m hm
    obtain ⟨s6, hw, h6t, h6ag⟩ := base_init_walk_spec (f+1) s tname _ (some pname)
      chain _ (inherited_class tname csize pk pt.class_size s.nextProp)
      h5ag hch hnn h5t (by rw [← hKc]; rfl)
    simp only [hw]
    cases hcl : ti.class_init with
    | none =>
      simp only [class_init_step]
      exact ⟨s6, by simp⟩
    | some h0 =>
      simp only [class_init_step, h6t]
      exact ⟨setKlass s6 tname (h0 (base_hooks_fold tname chain
        (inherited_class tname csize pk pt.class_size s.nextProp)).1), by simp⟩


/-! Claim theorems. -/

/-- C1: REFUTED by the code (code bug). `object_new("base")` zeroes the
instance and then calls `object_ref`, whose body is `obj->ref--`: the
"initial" count is the `guint32` wraparound value `2^32 - 1`; a further
`object_ref` DECREMENTS the count to `2^32 - 2` instead of incrementing
it; a `ref`/`unref` pair lowers the count by 2 instead of returning it to
its initial value; and the `object_unref` immediately following
`object_new` does not finalize the object (no finalize/free events), since
finalization requires the pre-decrement count to be exactly 1. This
contradicts object.h's own documentation of `object_ref` ("Increase the
reference count of a object") and of `object_new` ("The returned object
has a reference count of 1"). -/
theorem C1_object_ref_decrements :
    newBaseRun.map (fun r => r.2.1.ref) = .ok (guintMod - 1) ∧
    (object_ref (some objBase)).map (·.ref) = some (guintMod - 2) ∧
    (object_ref (some objBase)).map (·.ref) ≠ some (objBase.ref + 1) ∧
    object_unref 8 stateAfterBase (some objBase) =
      .ok (some { objBase with ref := guintMod - 2 }, []) ∧
    object_unref 8 stateAfterBase (object_ref (some objBase)) =
      .ok (some { objBase with ref := guintMod - 3 }, []) := by
  exact ⟨by rfl, by rfl, by decide, by rfl, by rfl⟩

/-- C8: CONFIRMED. `type_new` is fatal on an absent name and on a name
already present in the registry; a successful creation requires the name
to be fresh, so the pool (and hence the registry) keeps exactly one
descriptor per name; and after a successful registration the name is
present, making a second registration of the same name fatal. -/
theorem C8_register_duplicate_fatal (fuel : Nat) (s : QOMState) (info : TypeInfo) :
    (info.name = none →
      type_new s info = .error (.fatal (.assertFail "info->name != NULL"))) ∧
    (∀ n t, info.name = some n → type_table_lookup s n = some t →
      type_new s info =
        .error (.fatal (.abortDiag ("Registering `" ++ n ++ "' which already exists")))) ∧
    (∀ n s', type_new s info = .ok (n, s') →
      info.name = some n ∧ type_table_lookup s n = none ∧
      s'.pool.map TypeImpl.name = s.pool.map TypeImpl.name ++ [n] ∧
      ((s.pool.map TypeImpl.name).Nodup → (s'.pool.map TypeImpl.name).Nodup)) ∧
    (∀ n s' ev, info.type_init_phase = TypeInitPhase.OBJECT_NEW_PHASE →
      type_register_internal fuel s info = .ok (n, s', ev) →
      (type_table_lookup s' n).isSome) := by
  refine ⟨?_, ?_, ?_, ?_⟩
  · intro h
    unfold type_new
    simp only [h]
  · intro n t hn hl
    unfold type_new
    simp only [hn, hl]
  · intro n s' h
    obtain ⟨h1, h2, h3, ti, hname, hpool, -, -, -⟩ := type_new_ok h
    refine ⟨h1, h2, ?_, ?_⟩
    · rw [hpool]
      simp [hname]
    · intro hnd
      rw [hpool]
      have hmem : n ∉ s.pool.map TypeImpl.name := by
        intro hmem
        obtain ⟨x, hx, hxn⟩ := List.mem_map.mp hmem
        have hfx := List.find?_eq_none.mp h3 x hx
        simp [hxn] at hfx
      simp [List.nodup_append, hname, hnd, hmem]
  · intro n s' ev hphase h
    unfold type_register_internal at h
    cases htn : type_new s info with
    | error e => rw [htn] at h; exact absurd h (by simp [Bind.bind, Except.bind])
    | ok r =>
      obtain ⟨n1, s1⟩ := r
      rw [htn] at h
      obtain ⟨-, -, -, ti, hname, -, -, -, hlook⟩ := type_new_ok htn
      simp only [Bind.bind, Except.bind] at h
      unfold type_table_add at h
      by_cases he : s1.enumerating_types
      · rw [if_pos he] at h; exact absurd h (by simp)
      · rw [if_neg he] at h
        rw [hphase] at h
        injection h with hpair
        have hn1 : n1 = n := congrArg Prod.fst hpair
        have hs1 := congrArg (fun p : String × QOMState × List Event => p.2.1) hpair
        subst hn1
        have := table_lookup_after_add hlook
        rw [show s' = pool_update s1 n1 (fun x => { x with registered := true }) from hs1.symm]
        simp [this]

/-- C9: CONFIRMED. The public registration entry points `type_register` and
`type_register_static` assert a parent and are fatal on a parentless
`TypeInfo`; the two root types "object" and "interface" are registered
parentless through the internal path by `register_types`. -/
theorem C9_parentless_registration_fatal (fuel : Nat) (s : QOMState) (info : TypeInfo) :
    (info.parent = none →
      type_register fuel s info = .error (.fatal (.assertFail "info->parent")) ∧
      type_register_static fuel s info = .error (.fatal (.assertFail "info->parent"))) ∧
    (register_types 4 initState).map
        (fun s => (s.pool.map (fun t => (t.name, t.parent, t.registered)), s.type_interface)) =
      .ok ([("interface", none, true), ("object", none, true)], some "interface") := by
  refine ⟨?_, by rfl⟩
  intro h
  constructor
  · unfold type_register
    simp only [h]
  · unfold type_register_static type_register
    simp only [h]

/-- C10: CONFIRMED. `get_class_by_name` is fatal on a NULL name, on an
unregistered name, and on a registered name whose class is not yet
materialized (aborting with a diagnostic carrying the caller's
file/line/function, without materializing anything — it returns no updated
state at all), whereas `object_class_by_name` on the same name
materializes the class and returns it. -/
theorem C10_get_class_fatal_vs_materialize (fuel : Nat) (s : QOMState)
    (file func : String) (line : Nat) :
    (get_class_by_name s none file line func =
      .error (.fatal (.assertFail "typename != NULL"))) ∧
    (∀ n, type_table_lookup s n = none →
      get_class_by_name s (some n) file line func =
        .error (.fatal (.assertFail "ti != NULL"))) ∧
    (∀ n ti, type_table_lookup s n = some ti → ti.klass = none →
      get_class_by_name s (some n) file line func =
        .error (.fatal (.abortDiag
          (file ++ ":" ++ toString line ++ ":" ++ func ++ ": type " ++ n ++
            " is uninitialized")))) ∧
    (∀ n ti s' ev t' k, type_get_by_name s (some n) = some ti →
      type_initialize' fuel s ti.name = .ok (s', ev) →
      pool_lookup s' ti.name = some t' → t'.klass = some k →
      object_class_by_name fuel s (some n) = .ok (some k, s', ev)) := by
  refine ⟨rfl, ?_, ?_, ?_⟩
  · intro n h
    unfold get_class_by_name
    simp only [h]
  · intro n ti h hk
    unfold get_class_by_name
    simp only [h, hk]
  · intro n ti s' ev t' k h1 h2 h3 h4
    unfold object_class_by_name
    simp only [h1, h2, Bind.bind, Except.bind, h3, h4]

/-- Witness for C8: on the demo registry, registering "base" a second time
is fatal on the second call. -/
theorem C8_register_duplicate_fatal_witness :
    baseInfo.name = some "base" ∧
    type_new demoState baseInfo =
      .error (.fatal (.abortDiag ("Registering `" ++ "base" ++ "' which already exists"))) :=
  ⟨rfl, (C8_register_duplicate_fatal 4 demoState baseInfo).2.1 "base" baseImpl rfl rfl⟩

/-- Witness for C9: registering a parentless `TypeInfo` through the public
entry point is fatal. -/
theorem C9_parentless_registration_fatal_witness :
    ({ name := some "r" } : TypeInfo).parent = none ∧
    type_register 4 demoState { name := some "r" } =
      .error (.fatal (.assertFail "info->parent")) :=
  ⟨rfl, ((C9_parentless_registration_fatal 4 demoState { name := some "r" }).1 rfl).1⟩

/-- Witness for C10: on the demo registry, where "base" is registered but
not yet materialized, `get_class_by_name` aborts with the caller-site
diagnostic while `object_class_by_name` materializes and returns the
class. -/
theorem C10_get_class_fatal_vs_materialize_witness :
    baseImpl.klass = none ∧
    get_class_by_name demoState (some "base") "main.c" 14 "main" =
      .error (.fatal (.abortDiag
        ("main.c" ++ ":" ++ toString (14 : Nat) ++ ":" ++ "main" ++ ": type " ++
          "base" ++ " is uninitialized"))) ∧
    object_class_by_name 8 demoState (some "base") =
      .ok (some kBase, stateBaseMat, evBaseMat) :=
  ⟨rfl,
    (C10_get_class_fatal_vs_materialize 8 demoState "main.c" "main" 14).2.2.1
      "base" baseImpl rfl rfl,
    (C10_get_class_fatal_vs_materialize 8 demoState "main.c" "main" 14).2.2.2
      "base" baseImpl stateBaseMat evBaseMat baseImplMat kBase rfl rfl rfl rfl⟩

/-- C2: REFUTED as stated; nearby statement proved. The object-level
`object_dynamic_cast_assert` performs NO cast check at all: it asserts the
object is non-NULL and returns it unchanged, so it silently returns
objects for which `object_dynamic_cast` fails. The class-level
`object_class_dynamic_cast_assert` returns the class unchecked whenever
the class is NULL or its interface list is empty; only for a class with a
non-empty interface list is a failed `object_class_dynamic_cast` fatal
(diagnostic with the caller's file/line/function, then abort). -/
theorem C2_assert_variants_amended (fuel : Nat) (s : QOMState)
    (tn : Option String) (file func : String) (line : Nat) :
    (object_dynamic_cast_assert s none tn file line func =
      .error (.fatal (.assertFail "obj != NULL"))) ∧
    (∀ o, object_dynamic_cast_assert s (some o) tn file line func = .ok (some o)) ∧
    (object_class_dynamic_cast_assert fuel s none tn file line func = .ok none) ∧
    (∀ k : ClassDescriptor, k.interfaces = [] →
      object_class_dynamic_cast_assert fuel s (some k) tn file line func = .ok (some k)) ∧
    (∀ k : ClassDescriptor, k.interfaces ≠ [] →
      object_class_dynamic_cast fuel s (some k) tn = .ok none →
      object_class_dynamic_cast_assert fuel s (some k) tn file line func =
        .error (.fatal (.abortDiag
          (file ++ ":" ++ toString line ++ ":" ++ func ++
            ": Object is not an instance of type " ++ (tn.getD "(null)"))))) ∧
    (∀ (k r : ClassDescriptor), k.interfaces ≠ [] →
      object_class_dynamic_cast fuel s (some k) tn = .ok (some r) →
      object_class_dynamic_cast_assert fuel s (some k) tn file line func =
        .ok (some r)) := by
  refine ⟨rfl, fun o => rfl, rfl, ?_, ?_, ?_⟩
  · intro k hk
    unfold object_class_dynamic_cast_assert
    simp [hk, List.isEmpty_iff]
  · intro k hk hc
    simp only [object_class_dynamic_cast_assert]
    rw [if_neg (by simpa [List.isEmpty_iff] using hk)]
    simp only [hc, Bind.bind, Except.bind]
  · intro k r hk hc
    simp only [object_class_dynamic_cast_assert]
    rw [if_neg (by simpa [List.isEmpty_iff] using hk)]
    simp only [hc, Bind.bind, Except.bind]

/-- Counterexample for C2: on the demo registry, casting the class of
"base" (no interfaces) to the unknown name "nonexistent" fails
(`object_class_dynamic_cast` returns none), yet the assert variant
returns the class without aborting; likewise `object_dynamic_cast` on a
"base" object fails while `object_dynamic_cast_assert` returns the object
unchecked. -/
theorem C2_assert_variants_counterexample :
    object_class_dynamic_cast 8 stateBaseMat (some kBase) (some "nonexistent") =
      .ok none ∧
    object_class_dynamic_cast_assert 8 stateBaseMat (some kBase)
        (some "nonexistent") "f.c" 1 "fn" = .ok (some kBase) ∧
    object_dynamic_cast 8 stateAfterBase (some objBase) (some "nonexistent") =
      .ok none ∧
    object_dynamic_cast_assert stateAfterBase (some objBase) (some "nonexistent")
        "f.c" 1 "fn" = .ok (some objBase) :=
  ⟨rfl, rfl, rfl, rfl⟩

/-- C6: REFUTED as stated; nearby statement proved. For two registered
names, `is_compatible_type(a, b)` is true exactly when `b` names `a`'s
type or a type on `a`'s parent chain. Unregistered names are however NOT
uniformly fatal: only a missing TARGET name with a registered first name
is fatal (the `type_is_ancestor` assertion); a missing first name with a
registered target quietly returns false; and two missing names compare as
equal NULL pointers and return TRUE. -/
theorem C6_is_compatible_amended (fuel : Nat) (s : QOMState) :
    (∀ a b : String, type_get_by_name s (some a) = none →
      type_get_by_name s (some b) = none →
      is_compatible_type fuel s (some a) (some b) = .ok true) ∧
    (∀ (a b : String) (ta : TypeImpl), type_get_by_name s (some a) = some ta →
      type_get_by_name s (some b) = none →
      is_compatible_type fuel s (some a) (some b) =
        .error (.fatal (.assertFail "target_type"))) ∧
    (∀ (a b : String) (tb : TypeImpl), type_get_by_name s (some a) = none →
      type_get_by_name s (some b) = some tb →
      is_compatible_type fuel s (some a) (some b) = .ok false) ∧
    (∀ (a b : String) (ta tb : TypeImpl) (l : List String),
      type_get_by_name s (some a) = some ta →
      type_get_by_name s (some b) = some tb →
      parent_chain_names fuel s ta = .ok l →
      is_compatible_type fuel s (some a) (some b) = .ok (decide (tb.name ∈ l))) := by
  refine ⟨?_, ?_, ?_, ?_⟩
  · intro a b h1 h2
    unfold is_compatible_type
    simp [h1, h2]
  · intro a b ta h1 h2
    unfold is_compatible_type
    simp only [h1, h2]
    rfl
  · intro a b tb h1 h2
    unfold is_compatible_type
    simp only [h1, h2]
    simp [type_is_ancestor', ancestor_walk]
  · intro a b ta tb l h1 h2 hc
    unfold is_compatible_type
    simp only [h1, h2]
    by_cases he : ta.name = tb.name
    · obtain ⟨l', hl⟩ := parent_chain_names_head hc
      have hm : tb.name ∈ l := by rw [hl, ← he]; exact List.mem_cons_self _ _
      simp [he, hm]
    · have hb : (ta.name == tb.name) = false := by simp [he]
      simp only [hb]
      rw [if_neg (by decide)]
      unfold type_is_ancestor'
      exact ancestor_walk_eq_mem fuel s ta tb l hc

/-- Counterexample for C6: on the demo registry, querying two UNREGISTERED
names returns true without being fatal (the two NULL lookups compare
pointer-equal), whereas the claim requires a fatal outcome for
unregistered names. -/
theorem C6_is_compatible_counterexample :
    type_table_lookup demoState "nonexistent1" = none ∧
    type_table_lookup demoState "nonexistent2" = none ∧
    is_compatible_type 4 demoState (some "nonexistent1") (some "nonexistent2") =
      .ok true := by
  refine ⟨rfl, rfl, by decide⟩

/-- Witness for C6 (amended): on the demo registry, "base" is compatible
with its ancestor "object" (chain membership), and a registered first name
with a missing target is fatal. -/
theorem C6_is_compatible_amended_witness :
    parent_chain_names 4 demoState baseImpl = .ok ["base", "object"] ∧
    is_compatible_type 4 demoState (some "base") (some "object") = .ok true ∧
    is_compatible_type 4 demoState (some "base") (some "zzz") =
      .error (.fatal (.assertFail "target_type")) :=
  ⟨by decide,
    by
      have h := (C6_is_compatible_amended 4 demoState).2.2.2 "base" "object"
        baseImpl objectImpl ["base", "object"] rfl rfl (by decide)
      exact h.trans (by rfl),
    (C6_is_compatible_amended 4 demoState).2.1 "base" "zzz" baseImpl rfl rfl⟩

/-- Witness for C2 (amended): in the interface fixture, the class of "X"
has interface entries, so its failed cast to "nonexistent" makes the
assert variant abort with the caller-site diagnostic. -/
theorem C2_assert_variants_amended_witness :
    kX.interfaces ≠ [] ∧
    object_class_dynamic_cast 8 stateX (some kX) (some "nonexistent") = .ok none ∧
    object_class_dynamic_cast_assert 8 stateX (some kX) (some "nonexistent")
        "f.c" 1 "fn" =
      .error (.fatal (.abortDiag
        ("f.c" ++ ":" ++ toString (1 : Nat) ++ ":" ++ "fn" ++
          ": Object is not an instance of type " ++
          ((some "nonexistent").getD "(null)")))) :=
  ⟨by decide, by decide,
    (C2_assert_variants_amended 8 stateX (some "nonexistent") "f.c" "fn" 1).2.2.2.2.1
      kX (by decide) (by decide)⟩

/-- C7: CONFIRMED. When `object_unref`'s decrement makes the count land on
zero (equivalently, the pre-decrement count is 1), the object is finalized
exactly then: the `instance_finalize` hooks along the parent chain run
bottom-up (the object's own type first, each child before its parent, up
to the root), and afterwards the stored `free` deallocator event occurs if
and only if `free` is set. A decrement not landing on zero finalizes
nothing, and `unref` at count zero is fatal. -/
theorem C7_unref_finalize_chain (fuel : Nat) (s : QOMState) (o : ObjectV)
    (t : TypeImpl) (k : ClassDescriptor) (l : List String)
    (ht : pool_lookup s o.klassName = some t)
    (hk : t.klass = some k)
    (hkt : k.typeName = o.klassName)
    (hc : parent_chain_names fuel s t = .ok l) :
    (o.ref = 1 →
      object_unref (fuel+1) s (some o) =
        .ok (some { o with ref := 0 },
          hooked_finalizers s l ++ if o.free then [Event.evFree] else [])) ∧
    (o.ref ≠ 0 → o.ref ≠ 1 →
      object_unref (fuel+1) s (some o) =
        .ok (some { o with ref := dec32 o.ref }, [])) ∧
    (o.ref = 0 →
      object_unref (fuel+1) s (some o) =
        .error (.fatal (.assertFail "obj->ref > 0"))) := by
  refine ⟨?_, ?_, ?_⟩
  · intro h1
    have hdec : dec32 1 = 0 := by decide
    simp only [object_unref, h1, hdec]
    rw [if_pos trivial]
    unfold object_finalize
    have hgc : object_get_class s
        { klassName := o.klassName, free := o.free, properties := o.properties,
          ref := 0 } = some k := by
      unfold object_get_class
      simp [ht, hk]
    simp only [hgc]
    rw [hkt]
    rw [object_deinit_spec fuel s o.klassName t l ht hc]
    simp [Bind.bind, Except.bind]
  · intro h0 h1
    simp only [object_unref]
    rw [if_neg h0, if_neg h1]
  · intro h0
    simp only [object_unref]
    rw [if_pos h0]

/-- Witness for C7: an "F2" object with count 1 on the finalize registry;
one `object_unref` runs the finalize hooks bottom-up ("F2" then "F1") and
then the deallocator, and an object with count 5 is merely decremented. -/
theorem C7_unref_finalize_chain_witness :
    ({ objF2 with ref := 1 } : ObjectV).ref = 1 ∧
    object_unref 5 stateF2 (some { objF2 with ref := 1 }) =
      .ok (some { objF2 with ref := 0 },
        [Event.evInstanceFinalize "F2", Event.evInstanceFinalize "F1",
          Event.evFree]) ∧
    object_unref 5 stateF2 (some { objF2 with ref := 5 }) =
      .ok (some { objF2 with ref := 4 }, []) := by
  refine ⟨rfl, ?_, ?_⟩
  · have h := (C7_unref_finalize_chain 4 stateF2 { objF2 with ref := 1 }
      f2Impl kF2 ["F2", "F1", "object"] rfl rfl rfl (by decide)).1 rfl
    exact h.trans (by decide)
  · have h := (C7_unref_finalize_chain 4 stateF2 { objF2 with ref := 5 }
      f2Impl kF2 ["F2", "F1", "object"] rfl rfl rfl (by decide)).2.1
      (by decide) (by decide)
    exact h.trans (by decide)

/-- C5: CONFIRMED. For a class whose type's interface list is non-empty
and a registered target name (different from the class's own type name)
that resolves to an interface type (a descendant of the root
`type_interface`), `object_class_dynamic_cast` scans the interface list
and returns none when zero entries match the target, the unique matching
synthesized interface class when exactly one matches, and none when two
or more match (ambiguity); in particular a class whose two interface
chains both reach a common ancestor yields none when cast to that
ancestor's name (both entries match). An entry matches when the target is
an ancestor of the entry's synthesized type. -/
theorem C5_interface_cast_match_count (fuel : Nat) (s : QOMState)
    (k : ClassDescriptor) (n : String) (ty target : TypeImpl)
    (rs : List (ClassDescriptor × Bool))
    (hty : pool_lookup s k.typeName = some ty)
    (hfast : ty.name ≠ n)
    (htar : type_get_by_name s (some n) = some target)
    (hkc : ty.klass = some k)
    (hne : k.interfaces ≠ [])
    (hiface : type_is_ancestor' fuel s (some target)
        (s.type_interface.bind (pool_lookup s)) = .ok true)
    (hrs : scan_results fuel s target k.interfaces = .ok rs) :
    object_class_dynamic_cast fuel s (some k) (some n) =
      .ok (match (rs.filter (fun r => r.2)).map Prod.fst with
           | [ek] => some ek
           | _ => none) := by
  unfold object_class_dynamic_cast
  simp only [hty, htar, hkc]
  rw [if_neg (by simpa using fun hh => hfast hh.symm)]
  rw [if_neg (by simpa [List.isEmpty_iff] using hne)]
  simp only [hiface, Bind.bind, Except.bind]
  rw [if_pos trivial]
  rw [cast_iface_scan_spec fuel s target k.interfaces rs hrs 0 none]
  simp only [Nat.zero_add, Bind.bind, Except.bind]
  cases hf : (rs.filter (fun r => r.2)).map Prod.fst with
  | nil =>
    have hlen : (rs.filter (fun r => r.2)).length = 0 := by
      simpa using congrArg List.length hf
    have hnm : rs.filter (fun r => r.2) = [] := List.length_eq_zero.mp hlen
    rw [last_match_of_no_match rs none hnm]
    simp [hlen]
  | cons ek tail =>
    cases tail with
    | nil =>
      have hlen : (rs.filter (fun r => r.2)).length = 1 := by
        simpa using congrArg List.length hf
      rw [last_match_of_single rs none ek hf]
      simp [hlen]
    | cons ek2 tail2 =>
      have hlen : (rs.filter (fun r => r.2)).length = tail2.length + 2 := by
        simpa using congrArg List.length hf
      rw [if_pos (show (rs.filter (fun r => r.2)).length > 1 by omega)]

/-- Witness for C5: in the interface fixture, the class of "X" carries the
two synthesized entries "X::I1" and "X::I2", whose interface chains both
reach "A"; casting to "A" matches both entries and therefore returns none
(ambiguity), exactly as the count analysis prescribes. -/
theorem C5_interface_cast_match_count_witness :
    kX.interfaces = ["X::I1", "X::I2"] ∧
    (rsXA.filter (fun r => r.2)).length = 2 ∧
    object_class_dynamic_cast 8 stateX (some kX) (some "A") = .ok none := by
  refine ⟨by decide, by decide, ?_⟩
  have h := C5_interface_cast_match_count 8 stateX kX "A" xImpl aImpl rsXA
    rfl (by decide) rfl rfl (by decide) (by decide) rfl
  exact h.trans (by decide)

/-- C3: CORRECTED. At the instant `class_init(C)` is invoked, the first
`P.class_size` bytes of `C`'s class descriptor are NOT byte-for-byte equal
to the parent's descriptor: after the memcpy, `type_initialize`
re-initializes the header before `class_init` runs — the type back-pointer
now names `C` itself, the interface list is emptied and the property table
is freshly allocated. What does hold (on an ancestor chain without
`class_base_init` hooks, which may rewrite the descriptor in between) is
that the descriptor handed to `class_init` is exactly the inherited one:
its payload — the method slots past the header — agrees byte-for-byte with
the parent's payload on the first `P.class_size` slots. -/
theorem C3_class_init_copy_amended (fuel : Nat) (s : QOMState)
    (tname pname : String) (ti pt : TypeImpl) (pk : ClassDescriptor)
    (csize isize : Nat) (chain : List TypeImpl)
    (ht : pool_lookup s tname = some ti)
    (hkn : ti.klass = none)
    (hpar : ti.parent = some pname)
    (hifo : ti.interfaces = [])
    (hpt : pool_lookup s pname = some pt)
    (hptk : pt.klass = some pk)
    (hpki : pk.interfaces = [])
    (hcs : type_class_get_size fuel s ti = .ok csize)
    (his : type_object_get_size fuel s ti = .ok isize)
    (hsz : pt.class_size ≤ csize)
    (hch : ancestor_chain fuel s (some pname) = .ok chain)
    (hnn : tname ∉ chain.map (fun c => c.name))
    (hnb : ∀ c ∈ chain, c.class_base_init.isNone)
    (hlen : pt.class_size ≤ pk.payload.length)
    (hci : ti.class_init.isSome) :
    ∃ s', type_initialize' (fuel+1) s tname =
        .ok (s', [Event.evCopy pname tname pk,
          Event.evClassInit tname
            (inherited_class tname csize pk pt.class_size s.nextProp)]) ∧
      (inherited_class tname csize pk pt.class_size s.nextProp).payload.take
          pt.class_size = pk.payload.take pt.class_size ∧
      (inherited_class tname csize pk pt.class_size s.nextProp).typeName =
        tname ∧
      (inherited_class tname csize pk pt.class_size s.nextProp).interfaces =
        ([] : List String) ∧
      (inherited_class tname csize pk pt.class_size s.nextProp).properties =
        s.nextProp := by
  obtain ⟨s', hrun⟩ := type_initialize_straightline_spec fuel s tname pname
    ti pt pk csize isize chain ht hkn hpar hifo hpt hptk hpki hcs his hsz
    hch hnn
  rw [base_hooks_fold_no_hooks tname chain _
    (fun c hc => Option.isNone_iff_eq_none.mp (hnb c hc))] at hrun
  cases hcl : ti.class_init with
  | none => simp [hcl] at hci
  | some f =>
    simp only [hcl] at hrun
    exact ⟨s', by simpa using hrun, memcpyPrefix_take _ _ _ hlen, rfl, rfl, rfl⟩

/-- C3 counterexample: materializing "base" over the already-materialized
root emits the copy of the parent descriptor and then hands `class_init` a
descriptor that fails prefix equality with the recorded parent descriptor:
already within the first `sizeof(ObjectClass)` bytes, the type
back-pointer and the property-table id differ before `class_init` runs. -/
theorem C3_class_init_copy_counterexample :
    evBaseMat = [Event.evCopy "object" "base" srcDBase,
      Event.evClassInit "base" argDBase] ∧
    ¬ classPrefixEq argDBase srcDBase 0 ∧
    argDBase.typeName ≠ srcDBase.typeName ∧
    argDBase.properties ≠ srcDBase.properties :=
  ⟨by decide, by decide, by decide, by decide⟩

/-- Witness for C3: on the demo registry with the root materialized,
materializing "base" copies the root class and hands `class_init` the
inherited descriptor, whose concrete value shows the re-initialized header
(type "base", interface list emptied, fresh property table 2) around the
inherited payload. -/
theorem C3_class_init_copy_amended_witness :
    (∃ s', type_initialize' 8 stateObjMat "base" =
        .ok (s', [Event.evCopy "object" "base" kObjOM,
          Event.evClassInit "base"
            (inherited_class "base" csizeB kObjOM objImplOM.class_size
              stateObjMat.nextProp)]) ∧
      (inherited_class "base" csizeB kObjOM objImplOM.class_size
          stateObjMat.nextProp).payload.take objImplOM.class_size =
        kObjOM.payload.take objImplOM.class_size ∧
      (inherited_class "base" csizeB kObjOM objImplOM.class_size
          stateObjMat.nextProp).typeName = "base" ∧
      (inherited_class "base" csizeB kObjOM objImplOM.class_size
          stateObjMat.nextProp).interfaces = ([] : List String) ∧
      (inherited_class "base" csizeB kObjOM objImplOM.class_size
          stateObjMat.nextProp).properties = stateObjMat.nextProp) ∧
    inherited_class "base" csizeB kObjOM objImplOM.class_size
        stateObjMat.nextProp =
      { typeName := "base", interfaces := [], properties := 2,
        concrete_class := none, interface_type := none, payload := [0] } := by
  refine ⟨?_, by decide⟩
  exact C3_class_init_copy_amended 7 stateObjMat "base" "object" baseImplOM
    objImplOM kObjOM csizeB isizeB chainB rfl rfl rfl rfl rfl rfl rfl rfl rfl
    (by decide) rfl (by decide) (by decide) (by decide) (by decide)

/-- C4: CORRECTED. During materialization of `T`, the `class_base_init`
hooks of `T`'s ancestors do run on `T`'s class descriptor after the parent
byte-copy and before `T`'s own `class_init` runs last — but in the
opposite order to the claim: the while-loop starts at the immediate parent
and follows `parent_type` pointers upward, so the immediate parent's hook
runs first and the root's hook runs last. The trace is the copy event,
then one `class_base_init` event per hooked ancestor in ancestor-chain
order (whose head is the immediate parent), then the `class_init`. -/
theorem C4_base_init_order_amended (fuel : Nat) (s : QOMState)
    (tname pname : String) (ti pt : TypeImpl) (pk : ClassDescriptor)
    (csize isize : Nat) (chain : List TypeImpl)
    (ht : pool_lookup s tname = some ti)
    (hkn : ti.klass = none)
    (hpar : ti.parent = some pname)
    (hifo : ti.interfaces = [])
    (hpt : pool_lookup s pname = some pt)
    (hptk : pt.klass = some pk)
    (hpki : pk.interfaces = [])
    (hcs : type_class_get_size fuel s ti = .ok csize)
    (his : type_object_get_size fuel s ti = .ok isize)
    (hsz : pt.class_size ≤ csize)
    (hch : ancestor_chain fuel s (some pname) = .ok chain)
    (hnn : tname ∉ chain.map (fun c => c.name))
    (hci : ti.class_init.isSome) :
    ∃ s' trace, type_initialize' (fuel+1) s tname = .ok (s', trace) ∧
      chain.head?.map (fun c => c.name) = some pname ∧
      trace.map Event.tag =
        EventTag.tCopy pname tname ::
          ((chain.filter (fun c => c.class_base_init.isSome)).map
            (fun c => EventTag.tBaseInit c.name tname) ++
           [EventTag.tClassInit tname]) := by
  obtain ⟨s', hrun⟩ := type_initialize_straightline_spec fuel s tname pname
    ti pt pk csize isize chain ht hkn hpar hifo hpt hptk hpki hcs his hsz
    hch hnn
  obtain ⟨c0, rest0, hsh0, hc00, hcn0⟩ := ancestor_chain_cursor_name hch
  cases hcl : ti.class_init with
  | none => simp [hcl] at hci
  | some f =>
    simp only [hcl] at hrun
    refine ⟨s', _, hrun, ?_, ?_⟩
    · rw [hsh0]
      simp [hcn0]
    · simp [Event.tag, base_hooks_fold_tags]

/-- C4 counterexample: on the hook-chain registry, materializing "T"
executes the "T"-targeted `class_base_init` events immediate parent first
("P2" then "P1"), which differs from the claimed root-first order ("P1"
then "P2"). -/
theorem C4_base_init_order_counterexample :
    (type_initialize' 8 chainState "T").map
        (fun r => (r.2.map Event.tag).filter
          (fun e => match e with
            | EventTag.tBaseInit _ target => target == "T"
            | _ => false)) =
      .ok [EventTag.tBaseInit "P2" "T", EventTag.tBaseInit "P1" "T"] ∧
    [EventTag.tBaseInit "P2" "T", EventTag.tBaseInit "P1" "T"] ≠
      [EventTag.tBaseInit "P1" "T", EventTag.tBaseInit "P2" "T"] :=
  ⟨by decide, by decide⟩

/-- Witness for C4: with "P2" materialized, materializing "T" traces the
copy from "P2", then the base hooks of "P2" and "P1" in that order, then
the `class_init` of "T". -/
theorem C4_base_init_order_amended_witness :
    ∃ s' trace, type_initialize' 8 stateP2 "T" = .ok (s', trace) ∧
      trace.map Event.tag =
        [EventTag.tCopy "P2" "T", EventTag.tBaseInit "P2" "T",
         EventTag.tBaseInit "P1" "T", EventTag.tClassInit "T"] := by
  obtain ⟨s', trace, hrun, hhead, htags⟩ := C4_base_init_order_amended 7
    stateP2 "T" "P2" tImplC p2Impl kP2 csizeT isizeT chainT rfl rfl rfl rfl
    rfl rfl rfl rfl rfl (by decide) rfl (by decide) (by decide)
  exact ⟨s', trace, hrun, htags.trans (by decide)⟩

end QOM
